import Mathlib

/-!
# Valentine: particle simulation of `src/main.js`

A shallow embedding of the canvas particle simulation.  JavaScript numbers are
idealised as elements of a linearly ordered field `α` (exact arithmetic: `ℚ`
for evaluation, `ℝ` where `Math.sqrt`, `Math.sin`, `Math.cos` are needed), so
rounding and overflow are outside the model.  The one division whose divisor
can be zero, `desiredW / heartW` in `buildHeartTargets`, is modelled by `jsDiv`,
which returns `none` for the non-finite result.  Decimal literals are written
as fractions (`0.0001 = 1/10000`, `0.8 = 8/10`, ...).
The library functions `Math.sqrt`, `Math.sin`, `Math.cos`, the constant
`Math.PI` and the draws of `Math.random` are explicit arguments.  The module
level variables `size`, `mouse`, `params` and `dots` are passed explicitly and
the updated `dots` array is returned.
-/

namespace Valentine

/-! ## Data model -/

/-- One element of the `dots` array (main.js 120-134). -/
structure Dot (α : Type) where
  x : α
  y : α
  vx : α
  vy : α
  tx : α
  ty : α
  hx : α
  hy : α
  deriving DecidableEq, Repr

/-- The `params` object (main.js 138-143). -/
structure Params (α : Type) where
  heartMix : α
  spring : α
  friction : α
  mouseStrength : α
  deriving DecidableEq, Repr

/-- The `mouse` object (main.js 84). -/
structure Mouse (α : Type) where
  x : α
  y : α
  active : Bool
  deriving DecidableEq, Repr

/-- The value returned by `resizeCanvas` and stored in `size` (main.js 69, 73). -/
structure Size (α : Type) where
  w : α
  h : α
  deriving DecidableEq, Repr

/-- A point `{ x, y }` as returned by `heartPoint` (main.js 155). -/
structure Point (α : Type) where
  x : α
  y : α
  deriving DecidableEq, Repr

section Defs

variable {α : Type} [LinearOrderedField α]

/-! ## `animate` (main.js 197-251) -/

/-- The local `targetX` of `animate` (main.js 204). -/
def targetX (P : Params α) (d : Dot α) : α :=
  d.tx + (d.hx - d.tx) * P.heartMix

/-- The local `targetY` of `animate` (main.js 205). -/
def targetY (P : Params α) (d : Dot α) : α :=
  d.ty + (d.hy - d.ty) * P.heartMix

/-- Spring acceleration and friction: main.js 204-211. -/
def springStep (P : Params α) (d : Dot α) : Dot α :=
  let ax := (targetX P d - d.x) * P.spring
  let ay := (targetY P d - d.y) * P.spring
  { d with vx := (d.vx + ax) * P.friction, vy := (d.vy + ay) * P.friction }

/-- The local `dist2` of the mouse branch (main.js 216-218). -/
def mouseDist2 (mouse : Mouse α) (d : Dot α) : α :=
  let dx := mouse.x - d.x
  let dy := mouse.y - d.y
  dx * dx + dy * dy

/-- The local `dist` of the mouse branch (main.js 224). -/
def mouseDist (sqrt : α → α) (mouse : Mouse α) (d : Dot α) : α :=
  sqrt (mouseDist2 mouse d) + 1 / 10000

/-- The local `strength` of the mouse branch (main.js 220, 225). -/
def mouseStrengthAt (sqrt : α → α) (mouse : Mouse α) (d : Dot α) : α :=
  (1 - mouseDist sqrt mouse d / 160) * (8 / 10)

/-- Mouse influence: main.js 215-230.  The divisors are the constant `radius`
and `dist`, which is at least `0.0001` when `sqrt` has no negative value. -/
def mouseStep (sqrt : α → α) (mouse : Mouse α) (d : Dot α) : Dot α :=
  if mouse.active then
    let dx := mouse.x - d.x
    let dy := mouse.y - d.y
    let dist2 := dx * dx + dy * dy
    let radius : α := 160
    let r2 := radius * radius
    if dist2 < r2 then
      let dist := sqrt dist2 + 1 / 10000
      let strength := (1 - dist / radius) * (8 / 10)
      { d with vx := d.vx + (dx / dist) * strength, vy := d.vy + (dy / dist) * strength }
    else d
  else d

/-- Position integration: main.js 233-234. -/
def integrate (d : Dot α) : Dot α :=
  { d with x := d.x + d.vx, y := d.y + d.vy }

/-- The four sequential wrap tests: main.js 237-240. -/
def wrap (size : Size α) (d : Dot α) : Dot α :=
  let x1 := if d.x < -10 then size.w + 10 else d.x
  let x2 := if x1 > size.w + 10 then -10 else x1
  let y1 := if d.y < -10 then size.h + 10 else d.y
  let y2 := if y1 > size.h + 10 then -10 else y1
  { d with x := x2, y := y2 }

/-- The state of a dot just before the wrap tests (main.js 204-234). -/
def preWrap (sqrt : α → α) (P : Params α) (mouse : Mouse α) (d : Dot α) : Dot α :=
  integrate (mouseStep sqrt mouse (springStep P d))

/-- The body of the `for (const d of dots)` loop of `animate`, without the
drawing calls (main.js 204-240). -/
def animateDot (sqrt : α → α) (P : Params α) (mouse : Mouse α) (size : Size α)
    (d : Dot α) : Dot α :=
  wrap size (preWrap sqrt P mouse d)

/-- One call of `animate`: every dot is updated in array order (main.js 200-248). -/
def animate (sqrt : α → α) (P : Params α) (mouse : Mouse α) (size : Size α)
    (dots : List (Dot α)) : List (Dot α) :=
  dots.map (animateDot sqrt P mouse size)

/-- The initial value of the `params` object (main.js 138-143). -/
def params : Params α :=
  { heartMix := 0, spring := 2 / 100, friction := 86 / 100, mouseStrength := 8 / 10 }

/-! ## `rand`, `dots`, `scatterTargets` (main.js 115-134, 256-261) -/

/-- `rand(min, max)` (main.js 115-117); `r` is the value returned by the call
of `Math.random()`. -/
def rand (r : α) (min max : α) : α :=
  min + r * (max - min)

/-- The callback of `Array.from` that creates one dot (main.js 120-134);
`r1`, `r2` are its two draws of `Math.random()`. -/
def newDot (size : Size α) (r1 r2 : α) : Dot α :=
  let x := rand r1 0 size.w
  let y := rand r2 0 size.h
  { x := x, y := y, vx := 0, vy := 0, tx := x, ty := y, hx := x, hy := y }

/-- The initial `dots` array of length `n` (main.js 120: `n = 1500`); dot `i`
consumes draws `2 * i` and `2 * i + 1` of the stream `draws`. -/
def dots (size : Size α) (draws : Nat → α) (n : Nat) : List (Dot α) :=
  (List.range n).map fun (i : Nat) => newDot size (draws (2 * i)) (draws (2 * i + 1))

/-- The loop of `scatterTargets` from draw number `k` on (main.js 257-260). -/
def scatterTargetsFrom (size : Size α) (draws : Nat → α) : Nat → List (Dot α) → List (Dot α)
  | _, [] => []
  | k, d :: ds =>
    { d with tx := rand (draws k) 0 size.w, ty := rand (draws (k + 1)) 0 size.h }
      :: scatterTargetsFrom size draws (k + 2) ds

/-- `scatterTargets` (main.js 256-261); `draws` is the stream of values that
successive calls of `Math.random()` return. -/
def scatterTargets (size : Size α) (draws : Nat → α) (ds : List (Dot α)) : List (Dot α) :=
  scatterTargetsFrom size draws 0 ds

/-! ## `heartPoint`, `buildHeartTargets` (main.js 147-193) -/

/-- `heartPoint(t)` (main.js 147-156); `Math.pow(s, 3)` is `s ^ 3`. -/
def heartPoint (sin cos : α → α) (t : α) : Point α :=
  { x := 16 * sin t ^ 3
    y := 13 * cos t - 5 * cos (2 * t) - 2 * cos (3 * t) - cos (4 * t) }

/-- The array `pts` built by the first loop of `buildHeartTargets` for a pool of
`n` dots (main.js 159-163). -/
def heartPts (sin cos : α → α) (PI : α) (n : Nat) : List (Point α) :=
  (List.range n).map fun (i : Nat) => heartPoint sin cos ((i : α) / (n : α) * PI * 2)

/-- The four running bounds of the second loop of `buildHeartTargets`. -/
structure Bounds (α : Type) where
  minX : α
  maxX : α
  minY : α
  maxY : α
  deriving DecidableEq, Repr

/-- One iteration of the bounds loop (main.js 168-171). -/
def boundsStep (b : Bounds α) (p : Point α) : Bounds α :=
  { minX := min b.minX p.x, maxX := max b.maxX p.x
    minY := min b.minY p.y, maxY := max b.maxY p.y }

/-- The bounds loop (main.js 166-172).  The source starts from
`(Infinity, -Infinity, Infinity, -Infinity)`, which the first iteration
replaces by the coordinates of the first point; the result is `none` when
there is no point, where the bounds stay infinite. -/
def heartBounds : List (Point α) → Option (Bounds α)
  | [] => none
  | p :: ps => some (ps.foldl boundsStep { minX := p.x, maxX := p.x, minY := p.y, maxY := p.y })

/-- JavaScript `a / b` on finite numbers: `none` stands for the non-finite
result (`Infinity`, `-Infinity` or `NaN`) of a division by zero, which the
ordered field has no value for. -/
def jsDiv (a b : α) : Option α :=
  if b = 0 then none else some (a / b)

/-- The assignment to `dots[i].hx`, `dots[i].hy` in the last loop of
`buildHeartTargets` (main.js 185-191). -/
def placeDot (size : Size α) (b : Bounds α) (scale : α) (d : Dot α) (p : Point α) : Dot α :=
  let heartW := b.maxX - b.minX
  let heartH := b.maxY - b.minY
  let cx := size.w * (1 / 2)
  let cy := size.h * (45 / 100)
  let x := (p.x - (b.minX + heartW / 2)) * scale + cx
  let y := -(p.y - (b.minY + heartH / 2)) * scale + cy
  { d with hx := x, hy := y }

/-- `buildHeartTargets` (main.js 158-193) on the pool `ds`.  There is no test
of `heartW` in the source: when `heartW = 0` the division `desiredW / heartW`
is by zero, `scale` is non-finite and the loop stores `NaN` in every `hx` (and
a non-finite value in every `hy`); the result is then `none`.  With an empty
pool neither loop runs and the pool is returned as it is. -/
def buildHeartTargets (sin cos : α → α) (PI : α) (size : Size α) (ds : List (Dot α)) :
    Option (List (Dot α)) :=
  let pts := heartPts sin cos PI ds.length
  match heartBounds pts with
  | none => some ds
  | some b =>
    let heartW := b.maxX - b.minX
    let desiredW := size.w * (35 / 100)
    (jsDiv desiredW heartW).map fun scale => List.zipWith (placeDot size b scale) ds pts

/-! ## The `mousemove` handler that repels `btnScatter` (main.js 16-54) -/

/-- The value of `btnScatter.getBoundingClientRect()` (main.js 18). -/
structure Rect (α : Type) where
  left : α
  top : α
  width : α
  height : α
  deriving DecidableEq, Repr

/-- The local `dist2` of the handler (main.js 19-26). -/
def btnDist2 (rect : Rect α) (clientX clientY : α) : α :=
  let cx := rect.left + rect.width / 2
  let cy := rect.top + rect.height / 2
  let dx := clientX - cx
  let dy := clientY - cy
  dx * dx + dy * dy

/-- The local `strength` of the handler (main.js 29, 33, 36). -/
def btnStrength (sqrt : α → α) (rect : Rect α) (clientX clientY : α) : α :=
  1 - (sqrt (btnDist2 rect clientX clientY) + 1 / 10000) / 140

/-- The handler of main.js 16-54: the result is the pair of arguments of the
calls `moveX(...)`, `moveY(...)`. -/
def btnRepel (sqrt : α → α) (rect : Rect α) (clientX clientY : α) : α × α :=
  let cx := rect.left + rect.width / 2
  let cy := rect.top + rect.height / 2
  let dx := clientX - cx
  let dy := clientY - cy
  let dist2 := dx * dx + dy * dy
  let radius : α := 140
  let r2 := radius * radius
  if dist2 < r2 then
    let dist := sqrt dist2 + 1 / 10000
    let strength := 1 - dist / radius
    let ux := dx / dist
    let uy := dy / dist
    let maxMove : α := 18
    let offsetX := -ux * maxMove * strength
    let offsetY := -uy * maxMove * strength
    (offsetX, offsetY)
  else (0, 0)

/-! ## Quantities read off the state, used to state the properties -/

/-- The velocity increment of the mouse branch: what `mouseStep` adds to
`(vx, vy)` of the dot it is given. -/
def mouseKick (sqrt : α → α) (mouse : Mouse α) (d : Dot α) : α × α :=
  ((mouseStep sqrt mouse d).vx - d.vx, (mouseStep sqrt mouse d).vy - d.vy)

/-- The heart target `(hx, hy)` of a dot, as a point. -/
def heartTarget (d : Dot α) : Point α :=
  { x := d.hx, y := d.hy }

/-- The image of the bounds `b` under the map of `placeDot`, for `scale >= 0`:
the `y` axis is inverted, so `minY` and `maxY` change places. -/
def placeBounds (size : Size α) (b : Bounds α) (scale : α) (c : Bounds α) : Bounds α :=
  { minX := (c.minX - (b.minX + (b.maxX - b.minX) / 2)) * scale + size.w * (1 / 2)
    maxX := (c.maxX - (b.minX + (b.maxX - b.minX) / 2)) * scale + size.w * (1 / 2)
    minY := -(c.maxY - (b.minY + (b.maxY - b.minY) / 2)) * scale + size.h * (45 / 100)
    maxY := -(c.minY - (b.minY + (b.maxY - b.minY) / 2)) * scale + size.h * (45 / 100) }

/-- Squared Euclidean distance from the position of a dot to its heart target
`(hx, hy)`. -/
def heartDist2 (d : Dot α) : α :=
  (d.x - d.hx) ^ 2 + (d.y - d.hy) ^ 2

end Defs

/-! ## Theorems -/

section AnimateBasics

variable {α : Type} [LinearOrderedField α]

theorem mouseStep_inactive (sqrt : α → α) (mx my : α) (d : Dot α) :
    mouseStep sqrt ⟨mx, my, false⟩ d = d := by
  simp [mouseStep]

theorem mouseStep_x (sqrt : α → α) (mouse : Mouse α) (d : Dot α) :
    (mouseStep sqrt mouse d).x = d.x ∧ (mouseStep sqrt mouse d).y = d.y := by
  simp only [mouseStep]
  split_ifs <;> exact ⟨rfl, rfl⟩

theorem springStep_pos (P : Params α) (d : Dot α) :
    (springStep P d).x = d.x ∧ (springStep P d).y = d.y := ⟨rfl, rfl⟩

theorem wrap_vel (size : Size α) (d : Dot α) :
    (wrap size d).vx = d.vx ∧ (wrap size d).vy = d.vy := ⟨rfl, rfl⟩

/-- C1: with the pointer inactive, one tick of `animate` sets
`vx' = (vx + (targetX - x) * spring) * friction` with
`targetX = tx + (hx - tx) * heartMix`, the position before the wrap tests is
`x + vx'` (same for `y`), and the tick is the wrap of that state.  In the
scenario of the spec (dot at `(0, 0)` at rest, heart target `(50, 50)`,
`heartMix = 1`, `spring = 0.02`, `friction = 0.86`, viewport `100 x 100`) the
new velocity and position are exactly `(0.86, 0.86)` over the rationals. -/
theorem animate_inactive_tick :
    (∀ (α : Type) [LinearOrderedField α] (sqrt : α → α) (P : Params α) (size : Size α)
        (mx my : α) (d : Dot α),
      targetX P d = d.tx + (d.hx - d.tx) * P.heartMix ∧
      targetY P d = d.ty + (d.hy - d.ty) * P.heartMix ∧
      (animateDot sqrt P ⟨mx, my, false⟩ size d).vx
        = (d.vx + (targetX P d - d.x) * P.spring) * P.friction ∧
      (animateDot sqrt P ⟨mx, my, false⟩ size d).vy
        = (d.vy + (targetY P d - d.y) * P.spring) * P.friction ∧
      (preWrap sqrt P ⟨mx, my, false⟩ d).x
        = d.x + (d.vx + (targetX P d - d.x) * P.spring) * P.friction ∧
      (preWrap sqrt P ⟨mx, my, false⟩ d).y
        = d.y + (d.vy + (targetY P d - d.y) * P.spring) * P.friction ∧
      animateDot sqrt P ⟨mx, my, false⟩ size d = wrap size (preWrap sqrt P ⟨mx, my, false⟩ d)) ∧
    (∀ (mx my tx ty ms : ℚ),
      animateDot Rat.sqrt ⟨1, 2 / 100, 86 / 100, ms⟩ ⟨mx, my, false⟩ ⟨100, 100⟩
          ⟨0, 0, 0, 0, tx, ty, 50, 50⟩
        = ⟨86 / 100, 86 / 100, 86 / 100, 86 / 100, tx, ty, 50, 50⟩) := by
  refine ⟨?_, ?_⟩
  · intro α _ sqrt P size mx my d
    refine ⟨rfl, rfl, ?_, ?_, ?_, ?_, rfl⟩ <;>
      simp [animateDot, preWrap, wrap, integrate, mouseStep_inactive, springStep]
  · intro mx my tx ty ms
    simp only [animateDot, preWrap, mouseStep_inactive, springStep, integrate, wrap,
      targetX, targetY]
    norm_num

/-- C2: wrap invariant.  For a viewport with `w >= 0` and `h >= 0`, whatever
the dot, the parameters, the pointer state and the square-root function, the
position at the end of one tick satisfies `-10 <= x <= w + 10` and
`-10 <= y <= h + 10`. -/
theorem animate_wrap_invariant (sqrt : α → α) (P : Params α) (mouse : Mouse α)
    (size : Size α) (d : Dot α) (hw : 0 ≤ size.w) (hh : 0 ≤ size.h) :
    -10 ≤ (animateDot sqrt P mouse size d).x ∧ (animateDot sqrt P mouse size d).x ≤ size.w + 10 ∧
    -10 ≤ (animateDot sqrt P mouse size d).y ∧ (animateDot sqrt P mouse size d).y ≤ size.h + 10 := by
  simp only [animateDot, wrap]
  refine ⟨?_, ?_, ?_, ?_⟩ <;> split_ifs <;> linarith

/-- Witness of C2: a dot near the right and top edges of a `100 x 100` viewport,
pushed outside by its velocity and an active pointer at distance 5. -/
theorem animate_wrap_invariant_witness :
    (0 : ℚ) ≤ (⟨100, 100⟩ : Size ℚ).w ∧ (0 : ℚ) ≤ (⟨100, 100⟩ : Size ℚ).h ∧
    -10 ≤ (animateDot Rat.sqrt params ⟨111, -5, true⟩ ⟨100, 100⟩
            ⟨108, -9, 5, -3, 108, -9, 50, 50⟩).x ∧
    (animateDot Rat.sqrt params ⟨111, -5, true⟩ ⟨100, 100⟩
            ⟨108, -9, 5, -3, 108, -9, 50, 50⟩).x ≤ (⟨100, 100⟩ : Size ℚ).w + 10 ∧
    -10 ≤ (animateDot Rat.sqrt params ⟨111, -5, true⟩ ⟨100, 100⟩
            ⟨108, -9, 5, -3, 108, -9, 50, 50⟩).y ∧
    (animateDot Rat.sqrt params ⟨111, -5, true⟩ ⟨100, 100⟩
            ⟨108, -9, 5, -3, 108, -9, 50, 50⟩).y ≤ (⟨100, 100⟩ : Size ℚ).h + 10 :=
  ⟨by norm_num, by norm_num,
    animate_wrap_invariant Rat.sqrt params ⟨111, -5, true⟩ ⟨100, 100⟩
      ⟨108, -9, 5, -3, 108, -9, 50, 50⟩ (by norm_num) (by norm_num)⟩

/-- C5: the blended target of `animate` is exactly the scatter target `(tx, ty)`
at `heartMix = 0` and exactly the heart target `(hx, hy)` at `heartMix = 1`; for
every `heartMix = m` it is the affine combination `(1 - m) * t + m * h`, with no
clamping: it passes the heart target by `(m - 1) * (h - t)`, for instance with
`m = 1.08`, `t = 0`, `h = 100` the target is `108`. -/
theorem blended_target (s f ms : α) (d : Dot α) :
    targetX ⟨0, s, f, ms⟩ d = d.tx ∧ targetY ⟨0, s, f, ms⟩ d = d.ty ∧
    targetX ⟨1, s, f, ms⟩ d = d.hx ∧ targetY ⟨1, s, f, ms⟩ d = d.hy ∧
    (∀ m : α,
      targetX ⟨m, s, f, ms⟩ d = (1 - m) * d.tx + m * d.hx ∧
      targetY ⟨m, s, f, ms⟩ d = (1 - m) * d.ty + m * d.hy ∧
      targetX ⟨m, s, f, ms⟩ d - d.hx = (m - 1) * (d.hx - d.tx) ∧
      targetY ⟨m, s, f, ms⟩ d - d.hy = (m - 1) * (d.hy - d.ty)) ∧
    targetX ⟨108 / 100, s, f, ms⟩ ⟨d.x, d.y, d.vx, d.vy, 0, 0, 100, 100⟩ = 108 ∧
    targetY ⟨108 / 100, s, f, ms⟩ ⟨d.x, d.y, d.vx, d.vy, 0, 0, 100, 100⟩ = 108 := by
  simp only [targetX, targetY]
  refine ⟨by ring, by ring, by ring, by ring, fun m => ⟨by ring, by ring, by ring, by ring⟩,
    by norm_num, by norm_num⟩

theorem mouseKick_near (sqrt : α → α) (mx my : α) (d : Dot α)
    (h : mouseDist2 ⟨mx, my, true⟩ d < 160 * 160) :
    mouseKick sqrt ⟨mx, my, true⟩ d
      = ((mx - d.x) / mouseDist sqrt ⟨mx, my, true⟩ d * mouseStrengthAt sqrt ⟨mx, my, true⟩ d,
         (my - d.y) / mouseDist sqrt ⟨mx, my, true⟩ d * mouseStrengthAt sqrt ⟨mx, my, true⟩ d) := by
  simp only [mouseDist2] at h
  simp [mouseKick, mouseStep, mouseDist, mouseStrengthAt, mouseDist2, h]

theorem mouseKick_far (sqrt : α → α) (mx my : α) (d : Dot α)
    (h : ¬ mouseDist2 ⟨mx, my, true⟩ d < 160 * 160) :
    mouseKick sqrt ⟨mx, my, true⟩ d = (0, 0) := by
  simp only [mouseDist2] at h
  simp [mouseKick, mouseStep, h]

theorem mouseDist2_nonneg (mouse : Mouse α) (d : Dot α) : 0 ≤ mouseDist2 mouse d := by
  exact add_nonneg (mul_self_nonneg _) (mul_self_nonneg _)

end AnimateBasics

section Pointer

theorem sqrt_lt_160_iff (D : ℝ) : Real.sqrt D < 160 ↔ D < 160 * 160 := by
  rw [Real.sqrt_lt' (by norm_num)]
  norm_num

/-- C3 (amended): while the pointer is active the velocity increment of the
mouse branch is zero whenever the Euclidean distance between pointer and dot is
`>= 160`, and for every distance `r` with `0 < r < 160 - 0.0001` it is non-zero
and directed toward the pointer: its dot product with `(mouse.x - x, mouse.y - y)`
and its magnitude are strictly positive. -/
theorem mouse_kick_toward (mx my : ℝ) (d : Dot ℝ) :
    (160 ≤ Real.sqrt (mouseDist2 ⟨mx, my, true⟩ d) →
      mouseKick Real.sqrt ⟨mx, my, true⟩ d = (0, 0)) ∧
    (0 < Real.sqrt (mouseDist2 ⟨mx, my, true⟩ d) →
      Real.sqrt (mouseDist2 ⟨mx, my, true⟩ d) < 160 - 1 / 10000 →
      0 < (mouseKick Real.sqrt ⟨mx, my, true⟩ d).1 * (mx - d.x)
          + (mouseKick Real.sqrt ⟨mx, my, true⟩ d).2 * (my - d.y) ∧
      0 < Real.sqrt ((mouseKick Real.sqrt ⟨mx, my, true⟩ d).1 ^ 2
          + (mouseKick Real.sqrt ⟨mx, my, true⟩ d).2 ^ 2) ∧
      mouseKick Real.sqrt ⟨mx, my, true⟩ d ≠ (0, 0)) := by
  constructor
  · intro h
    apply mouseKick_far
    rw [← sqrt_lt_160_iff]
    exact not_lt.mpr h
  · intro h0 h1
    have hnear : mouseDist2 ⟨mx, my, true⟩ d < 160 * 160 := by
      rw [← sqrt_lt_160_iff]; linarith
    rw [mouseKick_near _ _ _ _ hnear]
    have hdist : 0 < mouseDist Real.sqrt ⟨mx, my, true⟩ d := by
      simp only [mouseDist]; linarith
    have hstr : 0 < mouseStrengthAt Real.sqrt ⟨mx, my, true⟩ d := by
      simp only [mouseStrengthAt, mouseDist]
      have : (Real.sqrt (mouseDist2 ⟨mx, my, true⟩ d) + 1 / 10000) / 160 < 1 := by
        rw [div_lt_one (by norm_num)]; linarith
      nlinarith
    have hD0 : 0 < mouseDist2 ⟨mx, my, true⟩ d := Real.sqrt_pos.mp h0
    have hq : 0 < mouseStrengthAt Real.sqrt ⟨mx, my, true⟩ d
        / mouseDist Real.sqrt ⟨mx, my, true⟩ d := div_pos hstr hdist
    have hdot : 0 < (mx - d.x) / mouseDist Real.sqrt ⟨mx, my, true⟩ d
          * mouseStrengthAt Real.sqrt ⟨mx, my, true⟩ d * (mx - d.x)
        + (my - d.y) / mouseDist Real.sqrt ⟨mx, my, true⟩ d
          * mouseStrengthAt Real.sqrt ⟨mx, my, true⟩ d * (my - d.y) := by
      have e : (mx - d.x) / mouseDist Real.sqrt ⟨mx, my, true⟩ d
          * mouseStrengthAt Real.sqrt ⟨mx, my, true⟩ d * (mx - d.x)
        + (my - d.y) / mouseDist Real.sqrt ⟨mx, my, true⟩ d
          * mouseStrengthAt Real.sqrt ⟨mx, my, true⟩ d * (my - d.y)
        = mouseDist2 ⟨mx, my, true⟩ d * (mouseStrengthAt Real.sqrt ⟨mx, my, true⟩ d
          / mouseDist Real.sqrt ⟨mx, my, true⟩ d) := by
        simp only [mouseDist2]; ring
      rw [e]; exact mul_pos hD0 hq
    have hne : ((mx - d.x) / mouseDist Real.sqrt ⟨mx, my, true⟩ d
          * mouseStrengthAt Real.sqrt ⟨mx, my, true⟩ d,
        (my - d.y) / mouseDist Real.sqrt ⟨mx, my, true⟩ d
          * mouseStrengthAt Real.sqrt ⟨mx, my, true⟩ d) ≠ ((0 : ℝ), (0 : ℝ)) := by
      intro hz
      rw [Prod.mk.injEq] at hz
      rw [hz.1, hz.2] at hdot
      simp at hdot
    refine ⟨hdot, ?_, hne⟩
    apply Real.sqrt_pos.mpr
    have h1 := sq_nonneg ((mx - d.x) / mouseDist Real.sqrt ⟨mx, my, true⟩ d
          * mouseStrengthAt Real.sqrt ⟨mx, my, true⟩ d)
    have h2 := sq_nonneg ((my - d.y) / mouseDist Real.sqrt ⟨mx, my, true⟩ d
          * mouseStrengthAt Real.sqrt ⟨mx, my, true⟩ d)
    rcases lt_or_eq_of_le h1 with h | h
    · simp only; linarith
    · rcases lt_or_eq_of_le h2 with h' | h'
      · simp only; linarith
      · exfalso
        apply hne
        rw [Prod.mk.injEq]
        exact ⟨pow_eq_zero_iff (two_ne_zero) |>.mp h.symm,
          pow_eq_zero_iff (two_ne_zero) |>.mp h'.symm⟩

theorem sqrt_mouseDist2_axis (a : ℝ) (ha : 0 ≤ a) (b : Bool) (d : Dot ℝ)
    (hx : d.x = 0) (hy : d.y = 0) : Real.sqrt (mouseDist2 ⟨a, 0, b⟩ d) = a := by
  simp only [mouseDist2, hx, hy]
  rw [show (a - 0) * (a - 0) + ((0 : ℝ) - 0) * (0 - 0) = a ^ 2 by ring]
  exact Real.sqrt_sq ha

/-- Witness of C3 (amended): a pointer at distance 200 adds nothing, a pointer
at distance 5 pulls the dot toward it. -/
theorem mouse_kick_toward_witness :
    (160 ≤ Real.sqrt (mouseDist2 ⟨200, 0, true⟩ (⟨0, 0, 0, 0, 0, 0, 0, 0⟩ : Dot ℝ)) ∧
      mouseKick Real.sqrt ⟨200, 0, true⟩ (⟨0, 0, 0, 0, 0, 0, 0, 0⟩ : Dot ℝ) = (0, 0)) ∧
    (0 < Real.sqrt (mouseDist2 ⟨5, 0, true⟩ (⟨0, 0, 0, 0, 0, 0, 0, 0⟩ : Dot ℝ)) ∧
      Real.sqrt (mouseDist2 ⟨5, 0, true⟩ (⟨0, 0, 0, 0, 0, 0, 0, 0⟩ : Dot ℝ)) < 160 - 1 / 10000 ∧
      0 < (mouseKick Real.sqrt ⟨5, 0, true⟩ (⟨0, 0, 0, 0, 0, 0, 0, 0⟩ : Dot ℝ)).1 * (5 - 0)
          + (mouseKick Real.sqrt ⟨5, 0, true⟩ (⟨0, 0, 0, 0, 0, 0, 0, 0⟩ : Dot ℝ)).2 * (0 - 0)) := by
  have h200 : Real.sqrt (mouseDist2 ⟨200, 0, true⟩ (⟨0, 0, 0, 0, 0, 0, 0, 0⟩ : Dot ℝ)) = 200 :=
    sqrt_mouseDist2_axis 200 (by norm_num) true _ rfl rfl
  have h5 : Real.sqrt (mouseDist2 ⟨5, 0, true⟩ (⟨0, 0, 0, 0, 0, 0, 0, 0⟩ : Dot ℝ)) = 5 :=
    sqrt_mouseDist2_axis 5 (by norm_num) true _ rfl rfl
  have far : 160 ≤ Real.sqrt (mouseDist2 ⟨200, 0, true⟩ (⟨0, 0, 0, 0, 0, 0, 0, 0⟩ : Dot ℝ)) := by
    rw [h200]; norm_num
  have pos : 0 < Real.sqrt (mouseDist2 ⟨5, 0, true⟩ (⟨0, 0, 0, 0, 0, 0, 0, 0⟩ : Dot ℝ)) := by
    rw [h5]; norm_num
  have near : Real.sqrt (mouseDist2 ⟨5, 0, true⟩ (⟨0, 0, 0, 0, 0, 0, 0, 0⟩ : Dot ℝ))
      < 160 - 1 / 10000 := by
    rw [h5]; norm_num
  exact ⟨⟨far, (mouse_kick_toward 200 0 ⟨0, 0, 0, 0, 0, 0, 0, 0⟩).1 far⟩,
    pos, near, ((mouse_kick_toward 5 0 ⟨0, 0, 0, 0, 0, 0, 0, 0⟩).2 pos near).1⟩

/-- C3 as stated fails at two inputs with an active pointer at distance `< 160`:
when the pointer coincides with the dot (distance 0) the increment is `(0, 0)`,
and at distance `159.99995` (between `160 - 0.0001` and `160`) `strength` is
negative, so the increment has a negative dot product with the direction to the
pointer. -/
theorem mouse_kick_counterexample :
    (Real.sqrt (mouseDist2 ⟨0, 0, true⟩ (⟨0, 0, 0, 0, 0, 0, 0, 0⟩ : Dot ℝ)) < 160 ∧
      mouseKick Real.sqrt ⟨0, 0, true⟩ (⟨0, 0, 0, 0, 0, 0, 0, 0⟩ : Dot ℝ) = (0, 0)) ∧
    (Real.sqrt (mouseDist2 ⟨15999995 / 100000, 0, true⟩ (⟨0, 0, 0, 0, 0, 0, 0, 0⟩ : Dot ℝ)) < 160 ∧
      (mouseKick Real.sqrt ⟨15999995 / 100000, 0, true⟩ (⟨0, 0, 0, 0, 0, 0, 0, 0⟩ : Dot ℝ)).1
          * (15999995 / 100000 - 0)
        + (mouseKick Real.sqrt ⟨15999995 / 100000, 0, true⟩ (⟨0, 0, 0, 0, 0, 0, 0, 0⟩ : Dot ℝ)).2
          * (0 - 0) < 0) := by
  have h0 : Real.sqrt (mouseDist2 ⟨0, 0, true⟩ (⟨0, 0, 0, 0, 0, 0, 0, 0⟩ : Dot ℝ)) = 0 :=
    sqrt_mouseDist2_axis 0 le_rfl true _ rfl rfl
  have ha : Real.sqrt (mouseDist2 ⟨15999995 / 100000, 0, true⟩
      (⟨0, 0, 0, 0, 0, 0, 0, 0⟩ : Dot ℝ)) = 15999995 / 100000 :=
    sqrt_mouseDist2_axis _ (by norm_num) true _ rfl rfl
  refine ⟨⟨by rw [h0]; norm_num, ?_⟩, by rw [ha]; norm_num, ?_⟩
  · rw [mouseKick_near _ _ _ _ (by norm_num [mouseDist2])]
    simp
  · rw [mouseKick_near _ _ _ _ (by norm_num [mouseDist2])]
    simp only [mouseStrengthAt, mouseDist, ha]
    norm_num

end Pointer

section Spring

open Filter Topology

theorem rec2_energy (τ f : ℝ) (e : ℕ → ℝ) (h : ∀ n, e (n + 2) = τ * e (n + 1) - f * e n)
    (n : ℕ) :
    e (n + 1) ^ 2 - τ * e (n + 1) * e n + f * e n ^ 2
      = f ^ n * (e 1 ^ 2 - τ * e 1 * e 0 + f * e 0 ^ 2) := by
  induction n with
  | zero => simp
  | succ n ih =>
    rw [h n, pow_succ]
    linear_combination f * ih

theorem rec2_energy_bound (τ f : ℝ) (hf0 : 0 ≤ f) (hf1 : f ≤ 1) (hc : 0 < f - τ ^ 2 / 4)
    (e : ℕ → ℝ) (h : ∀ n, e (n + 2) = τ * e (n + 1) - f * e n) (n : ℕ) :
    (f - τ ^ 2 / 4) * e n ^ 2 ≤ e 1 ^ 2 - τ * e 1 * e 0 + f * e 0 ^ 2 := by
  have hQ0 : 0 ≤ e 1 ^ 2 - τ * e 1 * e 0 + f * e 0 ^ 2 := by
    nlinarith [sq_nonneg (e 1 - τ / 2 * e 0), sq_nonneg (e 0), mul_nonneg hc.le (sq_nonneg (e 0))]
  have h1 : (f - τ ^ 2 / 4) * e n ^ 2
      ≤ f ^ n * (e 1 ^ 2 - τ * e 1 * e 0 + f * e 0 ^ 2) := by
    rw [← rec2_energy τ f e h n]
    nlinarith [sq_nonneg (e (n + 1) - τ / 2 * e n)]
  have h2 : f ^ n ≤ 1 := pow_le_one₀ hf0 hf1
  nlinarith

theorem tendsto_zero_of_sq_le (e : ℕ → ℝ) (C r : ℝ) (hr0 : 0 ≤ r) (hr1 : r < 1)
    (h : ∀ n, e n ^ 2 ≤ C * r ^ n) : Tendsto e atTop (𝓝 0) := by
  have h1 : Tendsto (fun n => C * r ^ n) atTop (𝓝 0) := by
    simpa using (tendsto_pow_atTop_nhds_zero_of_lt_one hr0 hr1).const_mul C
  have h2 : Tendsto (fun n => e n ^ 2) atTop (𝓝 0) :=
    squeeze_zero (fun n => sq_nonneg _) h h1
  have h3 : Tendsto (fun n => Real.sqrt (e n ^ 2)) atTop (𝓝 0) := by
    simpa using (Real.continuous_sqrt.tendsto 0).comp h2
  rw [tendsto_zero_iff_abs_tendsto_zero]
  refine h3.congr (fun n => ?_)
  exact Real.sqrt_sq_eq_abs _

theorem rec1_bound (l m ρ d0 : ℝ) (hl : |l| ≤ ρ) (hm : |m| ≤ ρ) (e : ℕ → ℝ)
    (h : ∀ n, e (n + 1) = l * e n + m ^ n * d0) (n : ℕ) :
    |e (n + 1)| ≤ ρ ^ (n + 1) * |e 0| + (n + 1) * ρ ^ n * |d0| := by
  have hρ : 0 ≤ ρ := le_trans (abs_nonneg _) hl
  induction n with
  | zero =>
    rw [h 0]
    simp only [pow_zero, one_mul, zero_add, pow_one, Nat.cast_zero, mul_one]
    calc |l * e 0 + d0| ≤ |l * e 0| + |d0| := abs_add _ _
      _ = |l| * |e 0| + |d0| := by rw [abs_mul]
      _ ≤ ρ * |e 0| + |d0| := by nlinarith [abs_nonneg (e 0)]
  | succ n ih =>
    rw [h (n + 1)]
    have hmn : |m ^ (n + 1)| ≤ ρ ^ (n + 1) := by
      rw [abs_pow]; exact pow_le_pow_left₀ (abs_nonneg _) hm _
    calc |l * e (n + 1) + m ^ (n + 1) * d0|
        ≤ |l * e (n + 1)| + |m ^ (n + 1) * d0| := abs_add _ _
      _ = |l| * |e (n + 1)| + |m ^ (n + 1)| * |d0| := by rw [abs_mul, abs_mul]
      _ ≤ ρ * (ρ ^ (n + 1) * |e 0| + (n + 1) * ρ ^ n * |d0|) + ρ ^ (n + 1) * |d0| := by
          have a1 : |l| * |e (n + 1)| ≤ ρ * |e (n + 1)| :=
            mul_le_mul_of_nonneg_right hl (abs_nonneg _)
          have a2 : ρ * |e (n + 1)| ≤ ρ * (ρ ^ (n + 1) * |e 0| + (n + 1) * ρ ^ n * |d0|) :=
            mul_le_mul_of_nonneg_left ih hρ
          have a3 : |m ^ (n + 1)| * |d0| ≤ ρ ^ (n + 1) * |d0| :=
            mul_le_mul_of_nonneg_right hmn (abs_nonneg _)
          linarith
      _ = ρ ^ (n + 1 + 1) * |e 0| + ((n + 1 : ℕ) + 1) * ρ ^ (n + 1) * |d0| := by
          push_cast; ring

theorem rec1_tendsto (l m d0 : ℝ) (hl : |l| < 1) (hm : |m| < 1) (e : ℕ → ℝ)
    (h : ∀ n, e (n + 1) = l * e n + m ^ n * d0) : Tendsto e atTop (𝓝 0) := by
  have hρ0 : 0 ≤ max |l| |m| := le_max_of_le_left (abs_nonneg _)
  have hρ1 : max |l| |m| < 1 := max_lt hl hm
  have hb := rec1_bound l m (max |l| |m|) d0 (le_max_left _ _) (le_max_right _ _) e h
  have t1 : Tendsto (fun n : ℕ => (max |l| |m|) ^ n) atTop (𝓝 0) :=
    tendsto_pow_atTop_nhds_zero_of_lt_one hρ0 hρ1
  have t2 : Tendsto (fun n : ℕ => (n : ℝ) * (max |l| |m|) ^ n) atTop (𝓝 0) :=
    tendsto_self_mul_const_pow_of_lt_one hρ0 hρ1
  have t3 : Tendsto (fun n : ℕ => (max |l| |m|) ^ (n + 1) * |e 0|
      + ((n : ℝ) + 1) * (max |l| |m|) ^ n * |d0|) atTop (𝓝 0) := by
    have := ((t1.const_mul (max |l| |m| * |e 0|)).add ((t2.add t1).mul_const |d0|))
    simp only [mul_zero, add_zero, zero_mul] at this
    refine this.congr (fun n => ?_)
    rw [pow_succ]; ring
  have t4 : Tendsto (fun n => e (n + 1)) atTop (𝓝 0) := by
    rw [tendsto_zero_iff_abs_tendsto_zero]
    exact squeeze_zero (fun n => abs_nonneg _) hb t3
  exact (tendsto_add_atTop_iff_nat 1).mp t4

theorem rec2_tendsto (τ f : ℝ) (hf0 : 0 < f) (hf1 : f < 1) (hτ : |τ| < 1 + f) (e : ℕ → ℝ)
    (h : ∀ n, e (n + 2) = τ * e (n + 1) - f * e n) : Tendsto e atTop (𝓝 0) := by
  obtain ⟨hτ1, hτ2⟩ := abs_lt.mp hτ
  by_cases hD : τ ^ 2 < 4 * f
  · -- complex roots: the energy decays like `f ^ n`
    have hc : 0 < f - τ ^ 2 / 4 := by linarith
    apply tendsto_zero_of_sq_le e ((e 1 ^ 2 - τ * e 1 * e 0 + f * e 0 ^ 2) / (f - τ ^ 2 / 4)) f
      hf0.le hf1
    intro n
    have hE := rec2_energy τ f e h n
    rw [div_mul_eq_mul_div, le_div_iff₀ hc]
    nlinarith [sq_nonneg (e (n + 1) - τ / 2 * e n)]
  · -- real roots
    push_neg at hD
    have hr : Real.sqrt (τ ^ 2 - 4 * f) ^ 2 = τ ^ 2 - 4 * f := Real.sq_sqrt (by linarith)
    have hr0 : 0 ≤ Real.sqrt (τ ^ 2 - 4 * f) := Real.sqrt_nonneg _
    set r := Real.sqrt (τ ^ 2 - 4 * f) with hrdef
    have hl : |(τ + r) / 2| < 1 := by
      rw [abs_lt]; constructor
      · linarith
      · nlinarith
    have hm : |(τ - r) / 2| < 1 := by
      rw [abs_lt]; constructor
      · nlinarith
      · linarith
    have hd : ∀ n, e (n + 1) - (τ + r) / 2 * e n
        = ((τ - r) / 2) ^ n * (e 1 - (τ + r) / 2 * e 0) := by
      intro n
      induction n with
      | zero => simp
      | succ n ih =>
        rw [h n, pow_succ]
        linear_combination ((τ - r) / 2) * ih - (e n / 4) * hr
    apply rec1_tendsto ((τ + r) / 2) ((τ - r) / 2) (e 1 - (τ + r) / 2 * e 0) hl hm e
    intro n
    linarith [hd n]

variable {α : Type} [LinearOrderedField α]

theorem wrap_id (size : Size α) (q : Dot α) (h1 : -10 ≤ q.x) (h2 : q.x ≤ size.w + 10)
    (h3 : -10 ≤ q.y) (h4 : q.y ≤ size.h + 10) : wrap size q = q := by
  simp [wrap, not_lt.mpr h1, not_lt.mpr h2, not_lt.mpr h3, not_lt.mpr h4]

theorem preWrap_inactive (sqrt : α → α) (s f ms mx my : α) (q : Dot α) :
    preWrap sqrt ⟨1, s, f, ms⟩ ⟨mx, my, false⟩ q
      = ⟨q.x + (q.vx + (q.hx - q.x) * s) * f, q.y + (q.vy + (q.hy - q.y) * s) * f,
          (q.vx + (q.hx - q.x) * s) * f, (q.vy + (q.hy - q.y) * s) * f,
          q.tx, q.ty, q.hx, q.hy⟩ := by
  simp [preWrap, mouseStep_inactive, springStep, integrate, targetX, targetY]

/-- A sequence of dots in which every dot is the un-wrapped tick of the one
before (pointer inactive, `heartMix = 1`) keeps its heart target, and its offset
from the heart target obeys `e (n + 2) = (1 + f - f * s) * e (n + 1) - f * e n`
on each axis. -/
theorem preWrap_seq (sqrt : α → α) (s f ms mx my : α) (D : ℕ → Dot α)
    (hD : ∀ n, D (n + 1) = preWrap sqrt ⟨1, s, f, ms⟩ ⟨mx, my, false⟩ (D n)) :
    (∀ n, (D n).hx = (D 0).hx ∧ (D n).hy = (D 0).hy) ∧
    (∀ n, (D (n + 2)).x - (D 0).hx
      = (1 + f - f * s) * ((D (n + 1)).x - (D 0).hx) - f * ((D n).x - (D 0).hx)) ∧
    (∀ n, (D (n + 2)).y - (D 0).hy
      = (1 + f - f * s) * ((D (n + 1)).y - (D 0).hy) - f * ((D n).y - (D 0).hy)) := by
  have hh : ∀ n, (D n).hx = (D 0).hx ∧ (D n).hy = (D 0).hy := by
    intro n
    induction n with
    | zero => exact ⟨rfl, rfl⟩
    | succ n ih => rw [hD n, preWrap_inactive]; exact ih
  have hv : ∀ n, (D (n + 1)).vx = (D (n + 1)).x - (D n).x ∧
      (D (n + 1)).vy = (D (n + 1)).y - (D n).y := by
    intro n
    rw [hD n, preWrap_inactive]
    constructor <;> simp
  refine ⟨hh, ?_, ?_⟩
  · intro n
    have h2 : (D (n + 2)).x = (D (n + 1)).x
        + ((D (n + 1)).vx + ((D (n + 1)).hx - (D (n + 1)).x) * s) * f := by
      rw [hD (n + 1), preWrap_inactive]
    rw [h2, (hv n).1, (hh (n + 1)).1]
    ring
  · intro n
    have h2 : (D (n + 2)).y = (D (n + 1)).y
        + ((D (n + 1)).vy + ((D (n + 1)).hy - (D (n + 1)).y) * s) * f := by
      rw [hD (n + 1), preWrap_inactive]
    rw [h2, (hv n).2, (hh (n + 1)).2]
    ring

/-- C4 (amended): for `spring > 0`, `0 < friction < 1` and
`friction * spring < 2 * (1 + friction)`, with `heartMix = 1` and the pointer
inactive, as long as no wrap test fires (every position before the wrap tests
lies in `[-10, w + 10] x [-10, h + 10]`), the distance from the position of the
dot to its heart target `(hx, hy)` under iteration of the tick of `animate`
converges to 0. -/
theorem spring_converges (s f ms mx my : ℝ) (size : Size ℝ) (d : Dot ℝ)
    (hs : 0 < s) (hf0 : 0 < f) (hf1 : f < 1) (hstab : f * s < 2 * (1 + f))
    (hbox : ∀ n : ℕ,
      -10 ≤ (preWrap Real.sqrt ⟨1, s, f, ms⟩ ⟨mx, my, false⟩
        ((animateDot Real.sqrt ⟨1, s, f, ms⟩ ⟨mx, my, false⟩ size)^[n] d)).x ∧
      (preWrap Real.sqrt ⟨1, s, f, ms⟩ ⟨mx, my, false⟩
        ((animateDot Real.sqrt ⟨1, s, f, ms⟩ ⟨mx, my, false⟩ size)^[n] d)).x ≤ size.w + 10 ∧
      -10 ≤ (preWrap Real.sqrt ⟨1, s, f, ms⟩ ⟨mx, my, false⟩
        ((animateDot Real.sqrt ⟨1, s, f, ms⟩ ⟨mx, my, false⟩ size)^[n] d)).y ∧
      (preWrap Real.sqrt ⟨1, s, f, ms⟩ ⟨mx, my, false⟩
        ((animateDot Real.sqrt ⟨1, s, f, ms⟩ ⟨mx, my, false⟩ size)^[n] d)).y ≤ size.h + 10) :
    Tendsto (fun n : ℕ => Real.sqrt (heartDist2
      ((animateDot Real.sqrt ⟨1, s, f, ms⟩ ⟨mx, my, false⟩ size)^[n] d))) atTop (nhds 0) := by
  have hD : ∀ n, (animateDot Real.sqrt ⟨1, s, f, ms⟩ ⟨mx, my, false⟩ size)^[n + 1] d
      = preWrap Real.sqrt ⟨1, s, f, ms⟩ ⟨mx, my, false⟩
        ((animateDot Real.sqrt ⟨1, s, f, ms⟩ ⟨mx, my, false⟩ size)^[n] d) := by
    intro n
    rw [Function.iterate_succ_apply']
    exact wrap_id size _ (hbox n).1 (hbox n).2.1 (hbox n).2.2.1 (hbox n).2.2.2
  obtain ⟨hh, hx, hy⟩ := preWrap_seq Real.sqrt s f ms mx my
    (fun n => (animateDot Real.sqrt ⟨1, s, f, ms⟩ ⟨mx, my, false⟩ size)^[n] d) hD
  have hτ : |1 + f - f * s| < 1 + f := by
    rw [abs_lt]; constructor <;> nlinarith [mul_pos hf0 hs]
  have tx := rec2_tendsto (1 + f - f * s) f hf0 hf1 hτ
    (fun n => ((animateDot Real.sqrt ⟨1, s, f, ms⟩ ⟨mx, my, false⟩ size)^[n] d).x - d.hx) hx
  have ty := rec2_tendsto (1 + f - f * s) f hf0 hf1 hτ
    (fun n => ((animateDot Real.sqrt ⟨1, s, f, ms⟩ ⟨mx, my, false⟩ size)^[n] d).y - d.hy) hy
  have t2 := (tx.pow 2).add (ty.pow 2)
  have t3 := (Real.continuous_sqrt.tendsto _).comp t2
  simp only [ne_eq, OfNat.ofNat_ne_zero, not_false_eq_true, zero_pow, add_zero,
    Real.sqrt_zero] at t3
  refine t3.congr (fun n => ?_)
  simp only [Function.comp, heartDist2]
  rw [(hh n).1, (hh n).2]
  rfl

/-- A sufficient condition for "no wrap test fires": in the oscillating regime
`(1 + f - f * s) ^ 2 < 4 * f` the offset from the heart target stays within `R`
on each axis as soon as the initial energy is at most
`(f - (1 + f - f * s) ^ 2 / 4) * R ^ 2`, so if the square of half-side `R`
around the heart target lies inside the wrap box, every position before the
wrap tests lies inside it. -/
theorem spring_orbit_in_box (s f ms mx my R : ℝ) (size : Size ℝ) (d : Dot ℝ)
    (hf0 : 0 ≤ f) (hf1 : f ≤ 1) (hc : 0 < f - (1 + f - f * s) ^ 2 / 4) (hR : 0 ≤ R)
    (hQx : ((preWrap Real.sqrt ⟨1, s, f, ms⟩ ⟨mx, my, false⟩ d).x - d.hx) ^ 2
        - (1 + f - f * s) * ((preWrap Real.sqrt ⟨1, s, f, ms⟩ ⟨mx, my, false⟩ d).x - d.hx)
          * (d.x - d.hx) + f * (d.x - d.hx) ^ 2
      ≤ (f - (1 + f - f * s) ^ 2 / 4) * R ^ 2)
    (hQy : ((preWrap Real.sqrt ⟨1, s, f, ms⟩ ⟨mx, my, false⟩ d).y - d.hy) ^ 2
        - (1 + f - f * s) * ((preWrap Real.sqrt ⟨1, s, f, ms⟩ ⟨mx, my, false⟩ d).y - d.hy)
          * (d.y - d.hy) + f * (d.y - d.hy) ^ 2
      ≤ (f - (1 + f - f * s) ^ 2 / 4) * R ^ 2)
    (hx1 : -10 ≤ d.hx - R) (hx2 : d.hx + R ≤ size.w + 10)
    (hy1 : -10 ≤ d.hy - R) (hy2 : d.hy + R ≤ size.h + 10) (n : ℕ) :
    -10 ≤ (preWrap Real.sqrt ⟨1, s, f, ms⟩ ⟨mx, my, false⟩
      ((animateDot Real.sqrt ⟨1, s, f, ms⟩ ⟨mx, my, false⟩ size)^[n] d)).x ∧
    (preWrap Real.sqrt ⟨1, s, f, ms⟩ ⟨mx, my, false⟩
      ((animateDot Real.sqrt ⟨1, s, f, ms⟩ ⟨mx, my, false⟩ size)^[n] d)).x ≤ size.w + 10 ∧
    -10 ≤ (preWrap Real.sqrt ⟨1, s, f, ms⟩ ⟨mx, my, false⟩
      ((animateDot Real.sqrt ⟨1, s, f, ms⟩ ⟨mx, my, false⟩ size)^[n] d)).y ∧
    (preWrap Real.sqrt ⟨1, s, f, ms⟩ ⟨mx, my, false⟩
      ((animateDot Real.sqrt ⟨1, s, f, ms⟩ ⟨mx, my, false⟩ size)^[n] d)).y ≤ size.h + 10 := by
  have hU : ∀ k, (preWrap Real.sqrt ⟨1, s, f, ms⟩ ⟨mx, my, false⟩)^[k + 1] d
      = preWrap Real.sqrt ⟨1, s, f, ms⟩ ⟨mx, my, false⟩
        ((preWrap Real.sqrt ⟨1, s, f, ms⟩ ⟨mx, my, false⟩)^[k] d) :=
    fun k => Function.iterate_succ_apply' _ _ _
  obtain ⟨_, hx, hy⟩ := preWrap_seq Real.sqrt s f ms mx my
    (fun k => (preWrap Real.sqrt ⟨1, s, f, ms⟩ ⟨mx, my, false⟩)^[k] d) hU
  have bx := rec2_energy_bound (1 + f - f * s) f hf0 hf1 hc
    (fun k => ((preWrap Real.sqrt ⟨1, s, f, ms⟩ ⟨mx, my, false⟩)^[k] d).x - d.hx) hx
  have bY := rec2_energy_bound (1 + f - f * s) f hf0 hf1 hc
    (fun k => ((preWrap Real.sqrt ⟨1, s, f, ms⟩ ⟨mx, my, false⟩)^[k] d).y - d.hy) hy
  have inbox : ∀ k,
      -10 ≤ ((preWrap Real.sqrt ⟨1, s, f, ms⟩ ⟨mx, my, false⟩)^[k] d).x ∧
      ((preWrap Real.sqrt ⟨1, s, f, ms⟩ ⟨mx, my, false⟩)^[k] d).x ≤ size.w + 10 ∧
      -10 ≤ ((preWrap Real.sqrt ⟨1, s, f, ms⟩ ⟨mx, my, false⟩)^[k] d).y ∧
      ((preWrap Real.sqrt ⟨1, s, f, ms⟩ ⟨mx, my, false⟩)^[k] d).y ≤ size.h + 10 := by
    intro k
    have h1 := le_trans (bx k) hQx
    have h2 := le_trans (bY k) hQy
    have a1 := abs_le_of_sq_le_sq' (le_of_mul_le_mul_left h1 hc) hR
    have a2 := abs_le_of_sq_le_sq' (le_of_mul_le_mul_left h2 hc) hR
    simp only at a1 a2
    refine ⟨?_, ?_, ?_, ?_⟩ <;> linarith [a1.1, a1.2, a2.1, a2.2]
  have heq : ∀ k, (animateDot Real.sqrt ⟨1, s, f, ms⟩ ⟨mx, my, false⟩ size)^[k] d
      = (preWrap Real.sqrt ⟨1, s, f, ms⟩ ⟨mx, my, false⟩)^[k] d := by
    intro k
    induction k with
    | zero => rfl
    | succ k ih =>
      rw [Function.iterate_succ_apply', ih, hU k, animateDot, ← hU k]
      exact wrap_id size _ (inbox (k + 1)).1 (inbox (k + 1)).2.1 (inbox (k + 1)).2.2.1
        (inbox (k + 1)).2.2.2
  rw [heq n, ← hU n]
  exact inbox (n + 1)

/-- Witness of C4 (amended): the scenario of the spec (dot at rest at `(0, 0)`,
heart target `(50, 50)`, `spring = 0.02`, `friction = 0.86`, viewport
`100 x 100`): the dot oscillates within distance 60 of the heart target on each
axis, no wrap test fires, and the distance converges to 0. -/
theorem spring_converges_witness :
    (0 : ℝ) < 2 / 100 ∧ (0 : ℝ) < 86 / 100 ∧ (86 / 100 : ℝ) < 1 ∧
    (86 / 100 : ℝ) * (2 / 100) < 2 * (1 + 86 / 100) ∧
    (∀ n : ℕ,
      -10 ≤ (preWrap Real.sqrt ⟨1, 2 / 100, 86 / 100, 8 / 10⟩ ⟨0, 0, false⟩
        ((animateDot Real.sqrt ⟨1, 2 / 100, 86 / 100, 8 / 10⟩ ⟨0, 0, false⟩ ⟨100, 100⟩)^[n]
          ⟨0, 0, 0, 0, 0, 0, 50, 50⟩)).x ∧
      (preWrap Real.sqrt ⟨1, 2 / 100, 86 / 100, 8 / 10⟩ ⟨0, 0, false⟩
        ((animateDot Real.sqrt ⟨1, 2 / 100, 86 / 100, 8 / 10⟩ ⟨0, 0, false⟩ ⟨100, 100⟩)^[n]
          ⟨0, 0, 0, 0, 0, 0, 50, 50⟩)).x ≤ (⟨100, 100⟩ : Size ℝ).w + 10 ∧
      -10 ≤ (preWrap Real.sqrt ⟨1, 2 / 100, 86 / 100, 8 / 10⟩ ⟨0, 0, false⟩
        ((animateDot Real.sqrt ⟨1, 2 / 100, 86 / 100, 8 / 10⟩ ⟨0, 0, false⟩ ⟨100, 100⟩)^[n]
          ⟨0, 0, 0, 0, 0, 0, 50, 50⟩)).y ∧
      (preWrap Real.sqrt ⟨1, 2 / 100, 86 / 100, 8 / 10⟩ ⟨0, 0, false⟩
        ((animateDot Real.sqrt ⟨1, 2 / 100, 86 / 100, 8 / 10⟩ ⟨0, 0, false⟩ ⟨100, 100⟩)^[n]
          ⟨0, 0, 0, 0, 0, 0, 50, 50⟩)).y ≤ (⟨100, 100⟩ : Size ℝ).h + 10) ∧
    Tendsto (fun n : ℕ => Real.sqrt (heartDist2
      ((animateDot Real.sqrt ⟨1, 2 / 100, 86 / 100, 8 / 10⟩ ⟨0, 0, false⟩ ⟨100, 100⟩)^[n]
        ⟨0, 0, 0, 0, 0, 0, 50, 50⟩))) atTop (nhds 0) := by
  have hbox := spring_orbit_in_box (2 / 100) (86 / 100) (8 / 10) 0 0 60 ⟨100, 100⟩
    ⟨0, 0, 0, 0, 0, 0, 50, 50⟩ (by norm_num) (by norm_num) (by norm_num) (by norm_num)
    (by rw [preWrap_inactive]; norm_num) (by rw [preWrap_inactive]; norm_num)
    (by norm_num) (by norm_num) (by norm_num) (by norm_num)
  exact ⟨by norm_num, by norm_num, by norm_num, by norm_num, hbox,
    spring_converges (2 / 100) (86 / 100) (8 / 10) 0 0 ⟨100, 100⟩ ⟨0, 0, 0, 0, 0, 0, 50, 50⟩
      (by norm_num) (by norm_num) (by norm_num) (by norm_num) hbox⟩

theorem animateDot_pass :
    animateDot Real.sqrt ⟨1, 2 / 100, 86 / 100, 8 / 10⟩ ⟨0, 0, false⟩ ⟨100, 100⟩
        (⟨50, 50, 1, 0, 0, 0, 50, 50⟩ : Dot ℝ)
      = ⟨50 + 86 / 100, 50, 86 / 100, 0, 0, 0, 50, 50⟩ := by
  rw [animateDot, preWrap_inactive]
  rw [wrap_id _ _ (by norm_num) (by norm_num) (by norm_num) (by norm_num)]
  norm_num

theorem animateDot_cycle :
    animateDot Real.sqrt ⟨1, 6, 1 / 2, 8 / 10⟩ ⟨0, 0, false⟩ ⟨100, 100⟩
        (⟨51, 50, 2, 0, 0, 0, 50, 50⟩ : Dot ℝ) = ⟨49, 50, -2, 0, 0, 0, 50, 50⟩ ∧
    animateDot Real.sqrt ⟨1, 6, 1 / 2, 8 / 10⟩ ⟨0, 0, false⟩ ⟨100, 100⟩
        (⟨49, 50, -2, 0, 0, 0, 50, 50⟩ : Dot ℝ) = ⟨51, 50, 2, 0, 0, 0, 50, 50⟩ := by
  constructor
  · rw [animateDot, preWrap_inactive]
    rw [wrap_id _ _ (by norm_num) (by norm_num) (by norm_num) (by norm_num)]
    norm_num
  · rw [animateDot, preWrap_inactive]
    rw [wrap_id _ _ (by norm_num) (by norm_num) (by norm_num) (by norm_num)]
    norm_num

theorem animateDot_cycle_dist (n : ℕ) :
    heartDist2 ((animateDot Real.sqrt ⟨1, 6, 1 / 2, 8 / 10⟩ ⟨0, 0, false⟩ ⟨100, 100⟩)^[n]
      (⟨51, 50, 2, 0, 0, 0, 50, 50⟩ : Dot ℝ)) = 1 := by
  have h : (animateDot Real.sqrt ⟨1, 6, 1 / 2, 8 / 10⟩ ⟨0, 0, false⟩ ⟨100, 100⟩)^[n]
        (⟨51, 50, 2, 0, 0, 0, 50, 50⟩ : Dot ℝ) = ⟨51, 50, 2, 0, 0, 0, 50, 50⟩ ∨
      (animateDot Real.sqrt ⟨1, 6, 1 / 2, 8 / 10⟩ ⟨0, 0, false⟩ ⟨100, 100⟩)^[n]
        (⟨51, 50, 2, 0, 0, 0, 50, 50⟩ : Dot ℝ) = ⟨49, 50, -2, 0, 0, 0, 50, 50⟩ := by
    induction n with
    | zero => exact Or.inl rfl
    | succ n ih =>
      rw [Function.iterate_succ_apply']
      rcases ih with ih | ih
      · rw [ih]; exact Or.inr animateDot_cycle.1
      · rw [ih]; exact Or.inl animateDot_cycle.2
  rcases h with h | h <;> rw [h] <;> norm_num [heartDist2]

theorem animateDot_wrap_fixed :
    animateDot Real.sqrt ⟨1, 3 / 10, 9 / 10, 8 / 10⟩ ⟨0, 0, false⟩ ⟨100, 100⟩
        (⟨-10, 50, 162, 0, 0, 0, 50, 50⟩ : Dot ℝ) = ⟨-10, 50, 162, 0, 0, 0, 50, 50⟩ := by
  rw [animateDot, preWrap_inactive]
  simp only [wrap]
  norm_num

/-- C4 as stated fails at three inputs, all with `heartMix = 1`, the pointer
inactive and a `100 x 100` viewport.  With `spring = 0.02`, `friction = 0.86`, a
dot on its heart target `(50, 50)` with velocity `(1, 0)` is at distance 0 and
after one tick at distance `0.86`: the distance increases.  With `spring = 6`,
`friction = 1/2`, the dot at `(51, 50)` with velocity `(2, 0)` alternates between
`(51, 50)` and `(49, 50)`: the distance stays 1 and does not converge to 0.
With `spring = 0.3`, `friction = 0.9`, the dot at `(-10, 50)` with velocity
`(162, 0)` is integrated to `x = 152 > 110` and wrapped back to `x = -10` with
the same velocity: it is a fixed point of the tick at distance 60. -/
theorem spring_monotone_counterexample :
    (Real.sqrt (heartDist2 (⟨50, 50, 1, 0, 0, 0, 50, 50⟩ : Dot ℝ))
      < Real.sqrt (heartDist2 (animateDot Real.sqrt ⟨1, 2 / 100, 86 / 100, 8 / 10⟩
          ⟨0, 0, false⟩ ⟨100, 100⟩ (⟨50, 50, 1, 0, 0, 0, 50, 50⟩ : Dot ℝ)))) ∧
    ¬ Tendsto (fun n : ℕ => Real.sqrt (heartDist2
        ((animateDot Real.sqrt ⟨1, 6, 1 / 2, 8 / 10⟩ ⟨0, 0, false⟩ ⟨100, 100⟩)^[n]
          (⟨51, 50, 2, 0, 0, 0, 50, 50⟩ : Dot ℝ)))) atTop (nhds 0) ∧
    ¬ Tendsto (fun n : ℕ => Real.sqrt (heartDist2
        ((animateDot Real.sqrt ⟨1, 3 / 10, 9 / 10, 8 / 10⟩ ⟨0, 0, false⟩ ⟨100, 100⟩)^[n]
          (⟨-10, 50, 162, 0, 0, 0, 50, 50⟩ : Dot ℝ)))) atTop (nhds 0) := by
  refine ⟨?_, ?_, ?_⟩
  · rw [animateDot_pass]
    apply Real.sqrt_lt_sqrt <;> norm_num [heartDist2]
  · intro h
    have h1 : Tendsto (fun n : ℕ => Real.sqrt (heartDist2
        ((animateDot Real.sqrt ⟨1, 6, 1 / 2, 8 / 10⟩ ⟨0, 0, false⟩ ⟨100, 100⟩)^[n]
          (⟨51, 50, 2, 0, 0, 0, 50, 50⟩ : Dot ℝ)))) atTop (nhds 1) := by
      simp only [animateDot_cycle_dist, Real.sqrt_one]
      exact tendsto_const_nhds
    exact absurd (tendsto_nhds_unique h h1) (by norm_num)
  · intro h
    have h60 : Real.sqrt (heartDist2 (⟨-10, 50, 162, 0, 0, 0, 50, 50⟩ : Dot ℝ)) = 60 := by
      rw [show heartDist2 (⟨-10, 50, 162, 0, 0, 0, 50, 50⟩ : Dot ℝ) = 60 ^ 2 by
        norm_num [heartDist2]]
      exact Real.sqrt_sq (by norm_num)
    have h1 : Tendsto (fun n : ℕ => Real.sqrt (heartDist2
        ((animateDot Real.sqrt ⟨1, 3 / 10, 9 / 10, 8 / 10⟩ ⟨0, 0, false⟩ ⟨100, 100⟩)^[n]
          (⟨-10, 50, 162, 0, 0, 0, 50, 50⟩ : Dot ℝ)))) atTop (nhds 60) := by
      simp only [Function.iterate_fixed animateDot_wrap_fixed, h60]
      exact tendsto_const_nhds
    exact absurd (tendsto_nhds_unique h h1) (by norm_num)

end Spring

section Scatter

variable {α : Type} [LinearOrderedField α]

theorem rand_mem (r lo hi : α) (h0 : 0 ≤ r) (h1 : r < 1) (h : lo ≤ hi) :
    lo ≤ rand r lo hi ∧ rand r lo hi ≤ hi := by
  simp only [rand]
  constructor
  · nlinarith [mul_nonneg h0 (sub_nonneg.mpr h)]
  · nlinarith [mul_nonneg (sub_nonneg.mpr h1.le) (sub_nonneg.mpr h)]

theorem scatterTargetsFrom_length (size : Size α) (draws : Nat → α) (ds : List (Dot α)) :
    ∀ k, (scatterTargetsFrom size draws k ds).length = ds.length := by
  induction ds with
  | nil => intro k; rfl
  | cons d ds ih => intro k; simp [scatterTargetsFrom, ih]

theorem scatterTargetsFrom_bounds (size : Size α) (draws : Nat → α)
    (hw : 0 ≤ size.w) (hh : 0 ≤ size.h) (hd : ∀ k, 0 ≤ draws k ∧ draws k < 1)
    (ds : List (Dot α)) :
    ∀ k, ∀ d ∈ scatterTargetsFrom size draws k ds,
      0 ≤ d.tx ∧ d.tx ≤ size.w ∧ 0 ≤ d.ty ∧ d.ty ≤ size.h := by
  induction ds with
  | nil => intro k d hmem; simp [scatterTargetsFrom] at hmem
  | cons e es ih =>
    intro k d hmem
    simp only [scatterTargetsFrom, List.mem_cons] at hmem
    rcases hmem with rfl | hmem
    · have hx := rand_mem (draws k) 0 size.w (hd k).1 (hd k).2 hw
      have hy := rand_mem (draws (k + 1)) 0 size.h (hd (k + 1)).1 (hd (k + 1)).2 hh
      exact ⟨hx.1, hx.2, hy.1, hy.2⟩
    · exact ih (k + 2) d hmem

theorem scatterTargetsFrom_frame (size : Size α) (draws : Nat → α) (ds : List (Dot α)) :
    ∀ k, (scatterTargetsFrom size draws k ds).map (fun d => (d.x, d.y, d.vx, d.vy, d.hx, d.hy))
      = ds.map (fun d => (d.x, d.y, d.vx, d.vy, d.hx, d.hy)) := by
  induction ds with
  | nil => intro k; rfl
  | cons d ds ih => intro k; simp [scatterTargetsFrom, ih]

/-- C9: for a viewport with `w >= 0`, `h >= 0` and any stream of draws of
`Math.random` in `[0, 1)`, after `scatterTargets` the pool has the same number
of dots and every dot has `0 <= tx <= w` and `0 <= ty <= h`; `rand(min, max)`
with a draw in `[0, 1)` lies in `[min, max]` whenever `min <= max`. -/
theorem scatterTargets_in_viewport (size : Size α) (draws : Nat → α) (ds : List (Dot α))
    (hw : 0 ≤ size.w) (hh : 0 ≤ size.h) (hd : ∀ k, 0 ≤ draws k ∧ draws k < 1) :
    (scatterTargets size draws ds).length = ds.length ∧
    (∀ d ∈ scatterTargets size draws ds,
      0 ≤ d.tx ∧ d.tx ≤ size.w ∧ 0 ≤ d.ty ∧ d.ty ≤ size.h) ∧
    (∀ k lo hi, lo ≤ hi → lo ≤ rand (draws k) lo hi ∧ rand (draws k) lo hi ≤ hi) :=
  ⟨scatterTargetsFrom_length size draws ds 0,
    scatterTargetsFrom_bounds size draws hw hh hd ds 0,
    fun k lo hi h => rand_mem (draws k) lo hi (hd k).1 (hd k).2 h⟩

/-- Witness of C9: a pool of two dots in a `100 x 50` viewport with draws that
alternate between `1/4` and `3/4`. -/
theorem scatterTargets_in_viewport_witness :
    (0 : ℚ) ≤ (⟨100, 50⟩ : Size ℚ).w ∧ (0 : ℚ) ≤ (⟨100, 50⟩ : Size ℚ).h ∧
    (∀ k : Nat, (0 : ℚ) ≤ (if k % 2 = 0 then 1 / 4 else 3 / 4) ∧
      (if k % 2 = 0 then (1 / 4 : ℚ) else 3 / 4) < 1) ∧
    (∀ d ∈ scatterTargets (⟨100, 50⟩ : Size ℚ) (fun k => if k % 2 = 0 then 1 / 4 else 3 / 4)
        [⟨1, 2, 3, 4, 5, 6, 7, 8⟩, ⟨-1, -2, -3, -4, -5, -6, -7, -8⟩],
      0 ≤ d.tx ∧ d.tx ≤ 100 ∧ 0 ≤ d.ty ∧ d.ty ≤ 50) := by
  have hd : ∀ k : Nat, (0 : ℚ) ≤ (if k % 2 = 0 then 1 / 4 else 3 / 4) ∧
      (if k % 2 = 0 then (1 / 4 : ℚ) else 3 / 4) < 1 := by
    intro k; split_ifs <;> norm_num
  exact ⟨by norm_num, by norm_num, hd,
    (scatterTargets_in_viewport (⟨100, 50⟩ : Size ℚ) (fun k => if k % 2 = 0 then 1 / 4 else 3 / 4)
      [⟨1, 2, 3, 4, 5, 6, 7, 8⟩, ⟨-1, -2, -3, -4, -5, -6, -7, -8⟩]
      (by norm_num) (by norm_num) hd).2.1⟩

/-- C10: `scatterTargets` changes only the scatter target: the pool keeps its
length and order, and position `(x, y)`, velocity `(vx, vy)` and heart target
`(hx, hy)` of every dot are the same after the call as before, for every pool
and every stream of draws. -/
theorem scatterTargets_frame (size : Size α) (draws : Nat → α) (ds : List (Dot α)) :
    (scatterTargets size draws ds).length = ds.length ∧
    (scatterTargets size draws ds).map (fun d => (d.x, d.y, d.vx, d.vy, d.hx, d.hy))
      = ds.map (fun d => (d.x, d.y, d.vx, d.vy, d.hx, d.hy)) ∧
    (∀ (i : Nat) (h1 : i < (scatterTargets size draws ds).length) (h2 : i < ds.length),
      ((scatterTargets size draws ds).get ⟨i, h1⟩).x = (ds.get ⟨i, h2⟩).x ∧
      ((scatterTargets size draws ds).get ⟨i, h1⟩).y = (ds.get ⟨i, h2⟩).y ∧
      ((scatterTargets size draws ds).get ⟨i, h1⟩).vx = (ds.get ⟨i, h2⟩).vx ∧
      ((scatterTargets size draws ds).get ⟨i, h1⟩).vy = (ds.get ⟨i, h2⟩).vy ∧
      ((scatterTargets size draws ds).get ⟨i, h1⟩).hx = (ds.get ⟨i, h2⟩).hx ∧
      ((scatterTargets size draws ds).get ⟨i, h1⟩).hy = (ds.get ⟨i, h2⟩).hy) := by
  have hmap := scatterTargetsFrom_frame size draws ds 0
  refine ⟨scatterTargetsFrom_length size draws ds 0, hmap, ?_⟩
  intro i h1 h2
  have h := congrArg (fun l => l[i]?) hmap
  simp only [List.getElem?_map] at h
  have e1 : (scatterTargetsFrom size draws 0 ds)[i]? = some ((scatterTargets size draws ds).get ⟨i, h1⟩) :=
    List.getElem?_eq_getElem h1
  have e2 : ds[i]? = some (ds.get ⟨i, h2⟩) := List.getElem?_eq_getElem h2
  rw [e1, e2] at h
  simp only [Option.map_some', Option.some.injEq, Prod.mk.injEq] at h
  exact ⟨h.1, h.2.1, h.2.2.1, h.2.2.2.1, h.2.2.2.2.1, h.2.2.2.2.2⟩

end Scatter

section Heart

variable {α : Type} [LinearOrderedField α]

theorem heartPts_length (sin cos : α → α) (PI : α) (n : Nat) :
    (heartPts sin cos PI n).length = n := by
  simp [heartPts]

theorem heartPts_one (sin cos : α → α) (PI : α) :
    heartPts sin cos PI 1 = [heartPoint sin cos 0] := by
  simp [heartPts, List.range_succ]

theorem dots_length (size : Size α) (draws : Nat → α) (n : Nat) :
    (dots size draws n).length = n := by
  simp only [dots, List.length_map, List.length_range]

theorem affine_min (a m c u v : α) (ha : 0 ≤ a) :
    min ((u - m) * a + c) ((v - m) * a + c) = (min u v - m) * a + c := by
  rcases le_total u v with h | h
  · rw [min_eq_left h, min_eq_left]
    nlinarith [mul_nonneg (sub_nonneg.mpr h) ha]
  · rw [min_eq_right h, min_eq_right]
    nlinarith [mul_nonneg (sub_nonneg.mpr h) ha]

theorem affine_max (a m c u v : α) (ha : 0 ≤ a) :
    max ((u - m) * a + c) ((v - m) * a + c) = (max u v - m) * a + c := by
  rcases le_total u v with h | h
  · rw [max_eq_right h, max_eq_right]
    nlinarith [mul_nonneg (sub_nonneg.mpr h) ha]
  · rw [max_eq_left h, max_eq_left]
    nlinarith [mul_nonneg (sub_nonneg.mpr h) ha]

theorem neg_affine_min (a m c u v : α) (ha : 0 ≤ a) :
    min (-(u - m) * a + c) (-(v - m) * a + c) = -(max u v - m) * a + c := by
  rcases le_total u v with h | h
  · rw [max_eq_right h, min_eq_right]
    nlinarith [mul_nonneg (sub_nonneg.mpr h) ha]
  · rw [max_eq_left h, min_eq_left]
    nlinarith [mul_nonneg (sub_nonneg.mpr h) ha]

theorem neg_affine_max (a m c u v : α) (ha : 0 ≤ a) :
    max (-(u - m) * a + c) (-(v - m) * a + c) = -(min u v - m) * a + c := by
  rcases le_total u v with h | h
  · rw [min_eq_left h, max_eq_left]
    nlinarith [mul_nonneg (sub_nonneg.mpr h) ha]
  · rw [min_eq_right h, max_eq_right]
    nlinarith [mul_nonneg (sub_nonneg.mpr h) ha]

theorem boundsStep_place (size : Size α) (b : Bounds α) (scale : α) (hs : 0 ≤ scale)
    (c : Bounds α) (d : Dot α) (p : Point α) :
    boundsStep (placeBounds size b scale c) (heartTarget (placeDot size b scale d p))
      = placeBounds size b scale (boundsStep c p) := by
  simp only [boundsStep, placeBounds, heartTarget, placeDot]
  rw [affine_min _ _ _ _ _ hs, affine_max _ _ _ _ _ hs, neg_affine_min _ _ _ _ _ hs,
    neg_affine_max _ _ _ _ _ hs]

theorem foldl_boundsStep_place (size : Size α) (b : Bounds α) (scale : α) (hs : 0 ≤ scale) :
    ∀ (ds : List (Dot α)) (ps : List (Point α)) (c : Bounds α), ds.length = ps.length →
      ((List.zipWith (placeDot size b scale) ds ps).map heartTarget).foldl boundsStep
          (placeBounds size b scale c)
        = placeBounds size b scale (ps.foldl boundsStep c) := by
  intro ds
  induction ds with
  | nil =>
    intro ps c h
    cases ps with
    | nil => rfl
    | cons p ps => simp at h
  | cons d ds ih =>
    intro ps c h
    cases ps with
    | nil => simp at h
    | cons p ps =>
      simp only [List.length_cons, Nat.add_right_cancel_iff] at h
      simp only [List.zipWith_cons_cons, List.map_cons, List.foldl_cons]
      rw [boundsStep_place size b scale hs, ih ps _ h]

theorem heartBounds_place (size : Size α) (b : Bounds α) (scale : α) (hs : 0 ≤ scale)
    (ds : List (Dot α)) (ps : List (Point α)) (c : Bounds α) (hlen : ds.length = ps.length)
    (hc : heartBounds ps = some c) :
    heartBounds ((List.zipWith (placeDot size b scale) ds ps).map heartTarget)
      = some (placeBounds size b scale c) := by
  cases ps with
  | nil => simp [heartBounds] at hc
  | cons p ps =>
    cases ds with
    | nil => simp at hlen
    | cons d ds =>
      simp only [List.length_cons, Nat.add_right_cancel_iff] at hlen
      simp only [heartBounds, Option.some.injEq] at hc
      simp only [List.zipWith_cons_cons, List.map_cons, heartBounds]
      rw [← hc, ← foldl_boundsStep_place size b scale hs ds ps _ hlen]
      rfl

theorem foldl_boundsStep_le (ps : List (Point α)) :
    ∀ c : Bounds α, c.minX ≤ c.maxX → c.minY ≤ c.maxY →
      (ps.foldl boundsStep c).minX ≤ (ps.foldl boundsStep c).maxX ∧
      (ps.foldl boundsStep c).minY ≤ (ps.foldl boundsStep c).maxY := by
  induction ps with
  | nil => intro c h1 h2; exact ⟨h1, h2⟩
  | cons p ps ih =>
    intro c h1 h2
    simp only [List.foldl_cons]
    apply ih
    · exact le_trans (min_le_left _ _) (le_trans h1 (le_max_left _ _))
    · exact le_trans (min_le_left _ _) (le_trans h2 (le_max_left _ _))

theorem heartBounds_le (ps : List (Point α)) (b : Bounds α) (h : heartBounds ps = some b) :
    b.minX ≤ b.maxX ∧ b.minY ≤ b.maxY := by
  cases ps with
  | nil => simp [heartBounds] at h
  | cons p ps =>
    simp only [heartBounds, Option.some.injEq] at h
    rw [← h]
    exact foldl_boundsStep_le ps _ le_rfl le_rfl

/-- Under the hypotheses of C6 and C7 the rebuild returns the pool in which dot
`i` is placed from sample `i`, and the bounding box of the new heart targets is
the image of the bounding box of the samples. -/
theorem buildHeartTargets_some (sin cos : α → α) (PI : α) (size : Size α) (ds : List (Dot α))
    (b : Bounds α) (hw : 0 ≤ size.w)
    (hb : heartBounds (heartPts sin cos PI ds.length) = some b)
    (hne : b.maxX - b.minX ≠ 0) :
    0 < b.maxX - b.minX ∧
    buildHeartTargets sin cos PI size ds
      = some (List.zipWith (placeDot size b (size.w * (35 / 100) / (b.maxX - b.minX))) ds
          (heartPts sin cos PI ds.length)) ∧
    heartBounds ((List.zipWith (placeDot size b (size.w * (35 / 100) / (b.maxX - b.minX))) ds
          (heartPts sin cos PI ds.length)).map heartTarget)
      = some (placeBounds size b (size.w * (35 / 100) / (b.maxX - b.minX)) b) := by
  have hpos : 0 < b.maxX - b.minX :=
    lt_of_le_of_ne (sub_nonneg.mpr (heartBounds_le _ b hb).1) (Ne.symm hne)
  have hs : 0 ≤ size.w * (35 / 100) / (b.maxX - b.minX) :=
    div_nonneg (mul_nonneg hw (by norm_num)) hpos.le
  refine ⟨hpos, ?_, ?_⟩
  · simp only [buildHeartTargets, hb, jsDiv, if_neg hne, Option.map_some']
  · exact heartBounds_place size b _ hs ds _ b (heartPts_length sin cos PI ds.length).symm hb

theorem foldl_boundsStep_mem (ps : List (Point α)) :
    ∀ c : Bounds α,
      ((ps.foldl boundsStep c).minX ≤ c.minX ∧ c.maxX ≤ (ps.foldl boundsStep c).maxX ∧
        (ps.foldl boundsStep c).minY ≤ c.minY ∧ c.maxY ≤ (ps.foldl boundsStep c).maxY) ∧
      ∀ p ∈ ps, (ps.foldl boundsStep c).minX ≤ p.x ∧ p.x ≤ (ps.foldl boundsStep c).maxX ∧
        (ps.foldl boundsStep c).minY ≤ p.y ∧ p.y ≤ (ps.foldl boundsStep c).maxY := by
  induction ps with
  | nil => intro c; exact ⟨⟨le_rfl, le_rfl, le_rfl, le_rfl⟩, fun p hp => by simp at hp⟩
  | cons q qs ih =>
    intro c
    simp only [List.foldl_cons, List.mem_cons]
    obtain ⟨⟨h1, h2, h3, h4⟩, hmem⟩ := ih (boundsStep c q)
    simp only [boundsStep] at h1 h2 h3 h4
    refine ⟨⟨le_trans h1 (min_le_left _ _), le_trans (le_max_left _ _) h2,
      le_trans h3 (min_le_left _ _), le_trans (le_max_left _ _) h4⟩, ?_⟩
    intro p hp
    rcases hp with rfl | hp
    · exact ⟨le_trans h1 (min_le_right _ _), le_trans (le_max_right _ _) h2,
        le_trans h3 (min_le_right _ _), le_trans (le_max_right _ _) h4⟩
    · exact hmem p hp

theorem heartBounds_mem (ps : List (Point α)) (b : Bounds α) (h : heartBounds ps = some b) :
    ∀ p ∈ ps, b.minX ≤ p.x ∧ p.x ≤ b.maxX ∧ b.minY ≤ p.y ∧ p.y ≤ b.maxY := by
  cases ps with
  | nil => simp [heartBounds] at h
  | cons q qs =>
    simp only [heartBounds, Option.some.injEq] at h
    obtain ⟨⟨h1, h2, h3, h4⟩, hmem⟩ := foldl_boundsStep_mem qs ⟨q.x, q.x, q.y, q.y⟩
    rw [h] at h1 h2 h3 h4 hmem
    intro p hp
    rcases List.mem_cons.mp hp with rfl | hp
    · exact ⟨h1, h2, h3, h4⟩
    · exact hmem p hp

theorem heartBounds_isSome (ps : List (Point α)) (h : ps ≠ []) : ∃ b, heartBounds ps = some b := by
  cases ps with
  | nil => exact absurd rfl h
  | cons q qs => exact ⟨_, rfl⟩

/-- C6: after `buildHeartTargets` with viewport width `w >= 0` on a pool whose
sampled heart curve has a bounding box of non-zero width, the rebuild returns a
pool and the bounding box of its heart targets has width
`max hx - min hx = 0.35 * w`. -/
theorem buildHeartTargets_width (sin cos : α → α) (PI : α) (size : Size α) (ds : List (Dot α))
    (hw : 0 ≤ size.w)
    (hb : ∃ b, heartBounds (heartPts sin cos PI ds.length) = some b ∧ b.maxX - b.minX ≠ 0) :
    ∃ ds1 b1, buildHeartTargets sin cos PI size ds = some ds1 ∧
      ds1.length = ds.length ∧
      heartBounds (ds1.map heartTarget) = some b1 ∧
      b1.maxX - b1.minX = 35 / 100 * size.w := by
  obtain ⟨b, hb, hne⟩ := hb
  obtain ⟨hpos, hbuild, hbounds⟩ := buildHeartTargets_some sin cos PI size ds b hw hb hne
  refine ⟨_, _, hbuild, ?_, hbounds, ?_⟩
  · simp [heartPts_length]
  · simp only [placeBounds]
    field_simp
    ring

/-- C7: after `buildHeartTargets` with viewport `(w, h)`, `w > 0`, on a pool
whose sampled heart curve has a bounding box of non-zero width, the centre of
the bounding box of the new heart targets is exactly `(0.5 * w, 0.45 * h)`, and
the `y` axis is inverted: if sample `i` has a larger `y` than sample `j` then
`hy` of dot `i` is smaller than `hy` of dot `j`. -/
theorem buildHeartTargets_centre (sin cos : α → α) (PI : α) (size : Size α) (ds : List (Dot α))
    (hw : 0 < size.w)
    (hb : ∃ b, heartBounds (heartPts sin cos PI ds.length) = some b ∧ b.maxX - b.minX ≠ 0) :
    ∃ ds1 b1, buildHeartTargets sin cos PI size ds = some ds1 ∧
      ds1.length = ds.length ∧
      heartBounds (ds1.map heartTarget) = some b1 ∧
      (b1.minX + b1.maxX) / 2 = 1 / 2 * size.w ∧
      (b1.minY + b1.maxY) / 2 = 45 / 100 * size.h ∧
      ∀ (i j : Nat) (hi : i < ds1.length) (hj : j < ds1.length)
        (hi2 : i < (heartPts sin cos PI ds.length).length)
        (hj2 : j < (heartPts sin cos PI ds.length).length),
        ((heartPts sin cos PI ds.length).get ⟨j, hj2⟩).y
            < ((heartPts sin cos PI ds.length).get ⟨i, hi2⟩).y →
          (ds1.get ⟨i, hi⟩).hy < (ds1.get ⟨j, hj⟩).hy := by
  obtain ⟨b, hb, hne⟩ := hb
  obtain ⟨hpos, hbuild, hbounds⟩ := buildHeartTargets_some sin cos PI size ds b hw.le hb hne
  have hs : 0 < size.w * (35 / 100) / (b.maxX - b.minX) :=
    div_pos (mul_pos hw (by norm_num)) hpos
  refine ⟨_, _, hbuild, ?_, hbounds, ?_, ?_, ?_⟩
  · simp [heartPts_length]
  · simp only [placeBounds]
    ring
  · simp only [placeBounds]
    ring
  · intro i j hi hj hi2 hj2 hlt
    simp only [List.get_eq_getElem, List.getElem_zipWith, placeDot] at hlt ⊢
    nlinarith [mul_pos (sub_pos.mpr hlt) hs]

/-- C8 (amended): `buildHeartTargets` has no guard for a bounding box of zero
width.  On such a pool, and in particular on every pool of one dot, the scale
is the result of a division by zero and the heart targets are overwritten with
non-finite values: the rebuild has no finite result and the previous targets
are not kept. -/
theorem buildHeartTargets_zero_width (sin cos : α → α) (PI : α) (size : Size α) :
    (∀ (ds : List (Dot α)) (b : Bounds α),
      heartBounds (heartPts sin cos PI ds.length) = some b → b.maxX - b.minX = 0 →
      buildHeartTargets sin cos PI size ds = none) ∧
    (∀ d : Dot α, buildHeartTargets sin cos PI size [d] = none) := by
  constructor
  · intro ds b hb h0
    simp [buildHeartTargets, hb, jsDiv, h0]
  · intro d
    simp [buildHeartTargets, heartPts_one, heartBounds, jsDiv]

end Heart

section HeartReal

theorem real_heartPts_quarter (m : Nat) (hm : 0 < m) :
    (⟨16, 13 * Real.cos (Real.pi / 2) - 5 * Real.cos (2 * (Real.pi / 2))
        - 2 * Real.cos (3 * (Real.pi / 2)) - Real.cos (4 * (Real.pi / 2))⟩ : Point ℝ)
      ∈ heartPts Real.sin Real.cos Real.pi (4 * m) := by
  simp only [heartPts, List.mem_map, List.mem_range]
  refine ⟨m, by omega, ?_⟩
  have hm0 : (m : ℝ) ≠ 0 := Nat.cast_ne_zero.mpr hm.ne'
  have ht : (m : ℝ) / ((4 * m : Nat) : ℝ) * Real.pi * 2 = Real.pi / 2 := by
    push_cast
    field_simp
    ring
  rw [ht]
  simp [heartPoint]

theorem real_heartPts_zero (m : Nat) (hm : 0 < m) :
    (⟨0, 5⟩ : Point ℝ) ∈ heartPts Real.sin Real.cos Real.pi (4 * m) := by
  simp only [heartPts, List.mem_map, List.mem_range]
  refine ⟨0, by omega, ?_⟩
  simp [heartPoint]
  norm_num

/-- With the real sine and cosine, a pool whose size is a positive multiple of 4
has samples with `x = 0` and `x = 16`, so its bounding box has width `>= 16`. -/
theorem real_heart_width (m : Nat) (hm : 0 < m) :
    ∃ b, heartBounds (heartPts Real.sin Real.cos Real.pi (4 * m)) = some b ∧
      b.maxX - b.minX ≠ 0 := by
  have hq := real_heartPts_quarter m hm
  have hz := real_heartPts_zero m hm
  obtain ⟨b, hb⟩ := heartBounds_isSome (heartPts Real.sin Real.cos Real.pi (4 * m))
    (List.ne_nil_of_mem hz)
  refine ⟨b, hb, ?_⟩
  have h1 := (heartBounds_mem _ b hb _ hq).2.1
  have h2 := (heartBounds_mem _ b hb _ hz).1
  simp only at h1 h2
  intro h
  linarith

/-- Witness of C6: the pool of 1500 dots created in an `800 x 600` viewport,
rebuilt after a resize to `400 x 300`, with the real sine and cosine: the
bounding box of the heart targets has width `140`. -/
theorem buildHeartTargets_width_witness :
    (0 : ℝ) ≤ (⟨400, 300⟩ : Size ℝ).w ∧
    (∃ b, heartBounds (heartPts Real.sin Real.cos Real.pi
        (dots (⟨800, 600⟩ : Size ℝ) (fun _ => 1 / 2) 1500).length) = some b ∧
      b.maxX - b.minX ≠ 0) ∧
    ∃ ds1 b1, buildHeartTargets Real.sin Real.cos Real.pi ⟨400, 300⟩
        (dots (⟨800, 600⟩ : Size ℝ) (fun _ => 1 / 2) 1500) = some ds1 ∧
      ds1.length = 1500 ∧
      heartBounds (ds1.map heartTarget) = some b1 ∧
      b1.maxX - b1.minX = 140 := by
  have hlen : (dots (⟨800, 600⟩ : Size ℝ) (fun _ => 1 / 2) 1500).length = 4 * 375 := by
    rw [dots_length]
  have hb : ∃ b, heartBounds (heartPts Real.sin Real.cos Real.pi
        (dots (⟨800, 600⟩ : Size ℝ) (fun _ => 1 / 2) 1500).length) = some b ∧
      b.maxX - b.minX ≠ 0 := by
    rw [hlen]; exact real_heart_width 375 (by norm_num)
  have hw : (0 : ℝ) ≤ (⟨400, 300⟩ : Size ℝ).w := by norm_num
  obtain ⟨ds1, b1, h1, h2, h3, h4⟩ := buildHeartTargets_width Real.sin Real.cos Real.pi
    ⟨400, 300⟩ (dots (⟨800, 600⟩ : Size ℝ) (fun _ => 1 / 2) 1500) hw hb
  refine ⟨hw, hb, ds1, b1, h1, ?_, h3, ?_⟩
  · rw [h2, hlen]
  · rw [h4]; norm_num

/-- Witness of C7: a pool of 4 dots rebuilt in a `400 x 300` viewport with the
real sine and cosine: the bounding box of the heart targets is centred at
`(200, 135)`. -/
theorem buildHeartTargets_centre_witness :
    (0 : ℝ) < (⟨400, 300⟩ : Size ℝ).w ∧
    (∃ b, heartBounds (heartPts Real.sin Real.cos Real.pi
        (dots (⟨400, 300⟩ : Size ℝ) (fun _ => 1 / 2) 4).length) = some b ∧
      b.maxX - b.minX ≠ 0) ∧
    ∃ ds1 b1, buildHeartTargets Real.sin Real.cos Real.pi ⟨400, 300⟩
        (dots (⟨400, 300⟩ : Size ℝ) (fun _ => 1 / 2) 4) = some ds1 ∧
      heartBounds (ds1.map heartTarget) = some b1 ∧
      (b1.minX + b1.maxX) / 2 = 200 ∧ (b1.minY + b1.maxY) / 2 = 135 := by
  have hlen : (dots (⟨400, 300⟩ : Size ℝ) (fun _ => 1 / 2) 4).length = 4 * 1 := by
    rw [dots_length]
  have hb : ∃ b, heartBounds (heartPts Real.sin Real.cos Real.pi
        (dots (⟨400, 300⟩ : Size ℝ) (fun _ => 1 / 2) 4).length) = some b ∧
      b.maxX - b.minX ≠ 0 := by
    rw [hlen]; exact real_heart_width 1 (by norm_num)
  have hw : (0 : ℝ) < (⟨400, 300⟩ : Size ℝ).w := by norm_num
  obtain ⟨ds1, b1, h1, _, h3, h4, h5, _⟩ := buildHeartTargets_centre Real.sin Real.cos Real.pi
    ⟨400, 300⟩ (dots (⟨400, 300⟩ : Size ℝ) (fun _ => 1 / 2) 4) hw hb
  refine ⟨hw, hb, ds1, b1, h1, h3, ?_, ?_⟩
  · rw [h4]; norm_num
  · rw [h5]; norm_num

/-- Witness of C8 (amended): a pool of one dot with the real sine and cosine has
the single sample `(0, 5)`, a bounding box of width 0, and the rebuild has no
finite result. -/
theorem buildHeartTargets_zero_width_witness :
    heartBounds (heartPts Real.sin Real.cos Real.pi
        [(⟨1, 2, 0, 0, 1, 2, 7, 7⟩ : Dot ℝ)].length) = some ⟨0, 0, 5, 5⟩ ∧
    ((⟨0, 0, 5, 5⟩ : Bounds ℝ).maxX - (⟨0, 0, 5, 5⟩ : Bounds ℝ).minX = 0) ∧
    buildHeartTargets Real.sin Real.cos Real.pi ⟨800, 600⟩ [(⟨1, 2, 0, 0, 1, 2, 7, 7⟩ : Dot ℝ)]
      = none := by
  have hb : heartBounds (heartPts Real.sin Real.cos Real.pi
        [(⟨1, 2, 0, 0, 1, 2, 7, 7⟩ : Dot ℝ)].length) = some ⟨0, 0, 5, 5⟩ := by
    simp [heartPts_one, heartBounds, heartPoint]
    norm_num
  have h0 : (⟨0, 0, 5, 5⟩ : Bounds ℝ).maxX - (⟨0, 0, 5, 5⟩ : Bounds ℝ).minX = 0 := by norm_num
  exact ⟨hb, h0, (buildHeartTargets_zero_width Real.sin Real.cos Real.pi ⟨800, 600⟩).1 _ _ hb h0⟩

/-- C8 as stated fails on a pool of one dot with previous heart target `(7, 7)`
in an `800 x 600` viewport: the sample is `(0, 5)`, `heartW = 0`, and the rebuild
does not return the pool with its previous targets: it has no finite result. -/
theorem buildHeartTargets_guard_counterexample :
    heartPts Real.sin Real.cos Real.pi 1 = [⟨0, 5⟩] ∧
    buildHeartTargets Real.sin Real.cos Real.pi ⟨800, 600⟩ [(⟨1, 2, 0, 0, 1, 2, 7, 7⟩ : Dot ℝ)]
      = none ∧
    buildHeartTargets Real.sin Real.cos Real.pi ⟨800, 600⟩ [(⟨1, 2, 0, 0, 1, 2, 7, 7⟩ : Dot ℝ)]
      ≠ some [⟨1, 2, 0, 0, 1, 2, 7, 7⟩] := by
  have h : buildHeartTargets Real.sin Real.cos Real.pi ⟨800, 600⟩
      [(⟨1, 2, 0, 0, 1, 2, 7, 7⟩ : Dot ℝ)] = none := by
    simp [buildHeartTargets, heartPts_one, heartBounds, jsDiv]
  refine ⟨?_, h, ?_⟩
  · simp [heartPts_one, heartPoint]
    norm_num
  · rw [h]; simp

end HeartReal

section Pool

variable {α : Type} [LinearOrderedField α]

/-- C11 (amended): every dot of the initial pool has position equal to its
scatter sample `(rand(0, w), rand(0, h))`, velocity `(0, 0)`, scatter target
equal to that same sample, and heart target equal to that same sample too,
`(hx, hy) = (x, y)`, until `buildHeartTargets` runs. -/
theorem dots_initial (size : Size α) (draws : Nat → α) (n : Nat) :
    (dots size draws n).length = n ∧
    (dots size draws n).map (fun d => (d.x, d.y))
      = (List.range n).map
          (fun i => (rand (draws (2 * i)) 0 size.w, rand (draws (2 * i + 1)) 0 size.h)) ∧
    (dots size draws n).map (fun d => (d.vx, d.vy, d.tx, d.ty, d.hx, d.hy))
      = (dots size draws n).map (fun d => (0, 0, d.x, d.y, d.x, d.y)) := by
  refine ⟨?_, ?_, ?_⟩
  · simp only [dots, List.length_map, List.length_range]
  · simp only [dots, List.map_map]
    rfl
  · simp only [dots, List.map_map]
    rfl

/-- C11 as stated fails on the pool of one dot created in a `100 x 100` viewport
with both draws equal to `1/2`: the dot is created at `(50, 50)` with heart
target `(50, 50)`, not `(0, 0)`. -/
theorem dots_initial_counterexample :
    dots (⟨100, 100⟩ : Size ℚ) (fun _ => 1 / 2) 1 = [⟨50, 50, 0, 0, 50, 50, 50, 50⟩] ∧
    (dots (⟨100, 100⟩ : Size ℚ) (fun _ => 1 / 2) 1).map (fun d => (d.hx, d.hy)) ≠ [(0, 0)] := by
  have h : dots (⟨100, 100⟩ : Size ℚ) (fun _ => 1 / 2) 1 = [⟨50, 50, 0, 0, 50, 50, 50, 50⟩] := by
    simp [dots, List.range_succ, newDot, rand]
    norm_num
  refine ⟨h, ?_⟩
  rw [h]
  simp

end Pool

section Tick

variable {α : Type} [LinearOrderedField α]

/-- C12: one tick of `animate` does not depend on `params.mouseStrength`: two
parameter sets with the same `heartMix`, `spring` and `friction` and different
`mouseStrength` give the same state for every dot, pointer and viewport.  The
pointer force is computed with the constant `0.8`. -/
theorem animate_mouseStrength_irrelevant (sqrt : α → α) (m s f ms1 ms2 : α) (mouse : Mouse α)
    (size : Size α) (d : Dot α) (ds : List (Dot α)) :
    animateDot sqrt ⟨m, s, f, ms1⟩ mouse size d = animateDot sqrt ⟨m, s, f, ms2⟩ mouse size d ∧
    animate sqrt ⟨m, s, f, ms1⟩ mouse size ds = animate sqrt ⟨m, s, f, ms2⟩ mouse size ds ∧
    mouseStrengthAt sqrt mouse d = (1 - mouseDist sqrt mouse d / 160) * (8 / 10) :=
  ⟨rfl, rfl, rfl⟩

/-- C13: the edge wrap is a position teleport only.  For a viewport with
`w >= 0`, `h >= 0`, the velocity stored at the end of the tick is the velocity
that integrated the position (`x + vx` is the position before the wrap tests),
whether or not a wrap test fired; an integrated `x < -10` ends at `w + 10`, an
integrated `x > w + 10` ends at `-10`, and any other `x` is kept (same for `y`
and `h`). -/
theorem wrap_teleport (sqrt : α → α) (P : Params α) (mouse : Mouse α) (size : Size α)
    (d : Dot α) (hw : 0 ≤ size.w) (hh : 0 ≤ size.h) :
    (animateDot sqrt P mouse size d).vx = (preWrap sqrt P mouse d).vx ∧
    (animateDot sqrt P mouse size d).vy = (preWrap sqrt P mouse d).vy ∧
    (preWrap sqrt P mouse d).x = d.x + (animateDot sqrt P mouse size d).vx ∧
    (preWrap sqrt P mouse d).y = d.y + (animateDot sqrt P mouse size d).vy ∧
    ((preWrap sqrt P mouse d).x < -10 → (animateDot sqrt P mouse size d).x = size.w + 10) ∧
    (size.w + 10 < (preWrap sqrt P mouse d).x → (animateDot sqrt P mouse size d).x = -10) ∧
    (-10 ≤ (preWrap sqrt P mouse d).x → (preWrap sqrt P mouse d).x ≤ size.w + 10 →
      (animateDot sqrt P mouse size d).x = (preWrap sqrt P mouse d).x) ∧
    ((preWrap sqrt P mouse d).y < -10 → (animateDot sqrt P mouse size d).y = size.h + 10) ∧
    (size.h + 10 < (preWrap sqrt P mouse d).y → (animateDot sqrt P mouse size d).y = -10) ∧
    (-10 ≤ (preWrap sqrt P mouse d).y → (preWrap sqrt P mouse d).y ≤ size.h + 10 →
      (animateDot sqrt P mouse size d).y = (preWrap sqrt P mouse d).y) := by
  have hx : (preWrap sqrt P mouse d).x = d.x + (preWrap sqrt P mouse d).vx := by
    simp only [preWrap, integrate]
    rw [(mouseStep_x sqrt mouse (springStep P d)).1]
    rfl
  have hy : (preWrap sqrt P mouse d).y = d.y + (preWrap sqrt P mouse d).vy := by
    simp only [preWrap, integrate]
    rw [(mouseStep_x sqrt mouse (springStep P d)).2]
    rfl
  refine ⟨rfl, rfl, hx, hy, ?_, ?_, ?_, ?_, ?_, ?_⟩
  · intro h
    simp only [animateDot, wrap, if_pos h]
    rw [if_neg (lt_irrefl _)]
  · intro h
    have h1 : ¬ (preWrap sqrt P mouse d).x < -10 := by
      intro h2; linarith
    simp only [animateDot, wrap, if_neg h1]
    rw [if_pos h]
  · intro h1 h2
    simp only [animateDot, wrap, if_neg (not_lt.mpr h1)]
    rw [if_neg (not_lt.mpr h2)]
  · intro h
    simp only [animateDot, wrap, if_pos h]
    rw [if_neg (lt_irrefl _)]
  · intro h
    have h1 : ¬ (preWrap sqrt P mouse d).y < -10 := by
      intro h2; linarith
    simp only [animateDot, wrap, if_neg h1]
    rw [if_pos h]
  · intro h1 h2
    simp only [animateDot, wrap, if_neg (not_lt.mpr h1)]
    rw [if_neg (not_lt.mpr h2)]

/-- C17: one tick of `animate` changes only position and velocity: the pool
keeps its length and order, scatter target `(tx, ty)` and heart target
`(hx, hy)` of every dot are unchanged, and the new state at index `i` is the tick
of the old state at index `i` alone, with the shared pointer, parameters and
viewport. -/
theorem animate_frame (sqrt : α → α) (P : Params α) (mouse : Mouse α) (size : Size α)
    (ds : List (Dot α)) :
    (animate sqrt P mouse size ds).length = ds.length ∧
    (animate sqrt P mouse size ds).map (fun d => (d.tx, d.ty, d.hx, d.hy))
      = ds.map (fun d => (d.tx, d.ty, d.hx, d.hy)) ∧
    (∀ i : Nat, (animate sqrt P mouse size ds)[i]?
      = (ds[i]?).map (animateDot sqrt P mouse size)) ∧
    (∀ d : Dot α, (animateDot sqrt P mouse size d).tx = d.tx ∧
      (animateDot sqrt P mouse size d).ty = d.ty ∧
      (animateDot sqrt P mouse size d).hx = d.hx ∧
      (animateDot sqrt P mouse size d).hy = d.hy) := by
  have hd : ∀ d : Dot α, (animateDot sqrt P mouse size d).tx = d.tx ∧
      (animateDot sqrt P mouse size d).ty = d.ty ∧
      (animateDot sqrt P mouse size d).hx = d.hx ∧
      (animateDot sqrt P mouse size d).hy = d.hy := by
    intro d
    simp only [animateDot, wrap, preWrap, integrate, mouseStep]
    split_ifs <;> exact ⟨rfl, rfl, rfl, rfl⟩
  refine ⟨?_, ?_, ?_, hd⟩
  · simp [animate]
  · simp only [animate, List.map_map]
    apply List.map_congr_left
    intro d _
    simp only [Function.comp, (hd d).1, (hd d).2.1, (hd d).2.2.1, (hd d).2.2.2]
  · intro i
    simp [animate]

/-- C20: the rest state is a fixed point of the tick.  With the pointer
inactive, a dot with zero velocity whose position is its blended target and
lies in `[-10, w + 10] x [-10, h + 10]` is left unchanged by one tick. -/
theorem rest_fixed (sqrt : α → α) (P : Params α) (mx my : α) (size : Size α) (d : Dot α)
    (hvx : d.vx = 0) (hvy : d.vy = 0) (hx : d.x = targetX P d) (hy : d.y = targetY P d)
    (h1 : -10 ≤ d.x) (h2 : d.x ≤ size.w + 10) (h3 : -10 ≤ d.y) (h4 : d.y ≤ size.h + 10) :
    animateDot sqrt P ⟨mx, my, false⟩ size d = d ∧
    (animateDot sqrt P ⟨mx, my, false⟩ size d).x = d.x ∧
    (animateDot sqrt P ⟨mx, my, false⟩ size d).y = d.y ∧
    (animateDot sqrt P ⟨mx, my, false⟩ size d).vx = d.vx ∧
    (animateDot sqrt P ⟨mx, my, false⟩ size d).vy = d.vy := by
  have h : animateDot sqrt P ⟨mx, my, false⟩ size d = d := by
    have hp : preWrap sqrt P ⟨mx, my, false⟩ d = d := by
      simp only [preWrap, mouseStep_inactive, springStep, integrate, ← hx, ← hy, hvx, hvy]
      cases d
      simp only [Dot.mk.injEq] at *
      simp [hvx, hvy]
    rw [animateDot, hp]
    exact wrap_id size d h1 h2 h3 h4
  rw [h]
  exact ⟨rfl, rfl, rfl, rfl, rfl⟩

/-- Witness of C13: in a `100 x 100` viewport a dot at `(108, -9)` with velocity
`(5, -3)` and its target at its position is integrated to `(112.3, -11.58)`,
beyond the right and top margins, and ends at `(-10, 110)` with the velocity
`(4.3, -2.58)` that moved it. -/
theorem wrap_teleport_witness :
    (0 : ℚ) ≤ (⟨100, 100⟩ : Size ℚ).w ∧ (0 : ℚ) ≤ (⟨100, 100⟩ : Size ℚ).h ∧
    (⟨100, 100⟩ : Size ℚ).w + 10 < (preWrap Rat.sqrt ⟨1, 2 / 100, 86 / 100, 8 / 10⟩
      ⟨0, 0, false⟩ ⟨108, -9, 5, -3, 0, 0, 108, -9⟩).x ∧
    (preWrap Rat.sqrt ⟨1, 2 / 100, 86 / 100, 8 / 10⟩
      ⟨0, 0, false⟩ (⟨108, -9, 5, -3, 0, 0, 108, -9⟩ : Dot ℚ)).y < -10 ∧
    (animateDot Rat.sqrt ⟨1, 2 / 100, 86 / 100, 8 / 10⟩ ⟨0, 0, false⟩ ⟨100, 100⟩
      (⟨108, -9, 5, -3, 0, 0, 108, -9⟩ : Dot ℚ)).x = -10 ∧
    (animateDot Rat.sqrt ⟨1, 2 / 100, 86 / 100, 8 / 10⟩ ⟨0, 0, false⟩ ⟨100, 100⟩
      (⟨108, -9, 5, -3, 0, 0, 108, -9⟩ : Dot ℚ)).y = (⟨100, 100⟩ : Size ℚ).h + 10 ∧
    (preWrap Rat.sqrt ⟨1, 2 / 100, 86 / 100, 8 / 10⟩
      ⟨0, 0, false⟩ (⟨108, -9, 5, -3, 0, 0, 108, -9⟩ : Dot ℚ)).x
      = 108 + (animateDot Rat.sqrt ⟨1, 2 / 100, 86 / 100, 8 / 10⟩ ⟨0, 0, false⟩ ⟨100, 100⟩
        (⟨108, -9, 5, -3, 0, 0, 108, -9⟩ : Dot ℚ)).vx := by
  have hw : (0 : ℚ) ≤ (⟨100, 100⟩ : Size ℚ).w := by norm_num
  have hh : (0 : ℚ) ≤ (⟨100, 100⟩ : Size ℚ).h := by norm_num
  have hx : (⟨100, 100⟩ : Size ℚ).w + 10 < (preWrap Rat.sqrt ⟨1, 2 / 100, 86 / 100, 8 / 10⟩
      ⟨0, 0, false⟩ ⟨108, -9, 5, -3, 0, 0, 108, -9⟩).x := by
    rw [preWrap_inactive]; norm_num
  have hy : (preWrap Rat.sqrt ⟨1, 2 / 100, 86 / 100, 8 / 10⟩
      ⟨0, 0, false⟩ (⟨108, -9, 5, -3, 0, 0, 108, -9⟩ : Dot ℚ)).y < -10 := by
    rw [preWrap_inactive]; norm_num
  have h := wrap_teleport Rat.sqrt ⟨1, 2 / 100, 86 / 100, 8 / 10⟩ ⟨0, 0, false⟩ ⟨100, 100⟩
    (⟨108, -9, 5, -3, 0, 0, 108, -9⟩ : Dot ℚ) hw hh
  exact ⟨hw, hh, hx, hy, h.2.2.2.2.2.1 hx, h.2.2.2.2.2.2.2.1 hy, h.2.2.1⟩

/-- Witness of C20: with `heartMix = 1/2` a dot at rest at `(30, 40)`, halfway
between its scatter target `(10, 20)` and its heart target `(50, 60)`, in a
`100 x 100` viewport. -/
theorem rest_fixed_witness :
    (⟨30, 40, 0, 0, 10, 20, 50, 60⟩ : Dot ℚ).vx = 0 ∧
    (⟨30, 40, 0, 0, 10, 20, 50, 60⟩ : Dot ℚ).vy = 0 ∧
    (⟨30, 40, 0, 0, 10, 20, 50, 60⟩ : Dot ℚ).x
      = targetX ⟨1 / 2, 2 / 100, 86 / 100, 8 / 10⟩ ⟨30, 40, 0, 0, 10, 20, 50, 60⟩ ∧
    (⟨30, 40, 0, 0, 10, 20, 50, 60⟩ : Dot ℚ).y
      = targetY ⟨1 / 2, 2 / 100, 86 / 100, 8 / 10⟩ ⟨30, 40, 0, 0, 10, 20, 50, 60⟩ ∧
    animateDot Rat.sqrt ⟨1 / 2, 2 / 100, 86 / 100, 8 / 10⟩ ⟨7, 9, false⟩ ⟨100, 100⟩
      (⟨30, 40, 0, 0, 10, 20, 50, 60⟩ : Dot ℚ) = ⟨30, 40, 0, 0, 10, 20, 50, 60⟩ := by
  have hx : (⟨30, 40, 0, 0, 10, 20, 50, 60⟩ : Dot ℚ).x
      = targetX ⟨1 / 2, 2 / 100, 86 / 100, 8 / 10⟩ ⟨30, 40, 0, 0, 10, 20, 50, 60⟩ := by
    norm_num [targetX]
  have hy : (⟨30, 40, 0, 0, 10, 20, 50, 60⟩ : Dot ℚ).y
      = targetY ⟨1 / 2, 2 / 100, 86 / 100, 8 / 10⟩ ⟨30, 40, 0, 0, 10, 20, 50, 60⟩ := by
    norm_num [targetY]
  exact ⟨rfl, rfl, hx, hy,
    (rest_fixed Rat.sqrt ⟨1 / 2, 2 / 100, 86 / 100, 8 / 10⟩ 7 9 ⟨100, 100⟩
      (⟨30, 40, 0, 0, 10, 20, 50, 60⟩ : Dot ℚ) rfl rfl hx hy
      (by norm_num) (by norm_num) (by norm_num) (by norm_num)).1⟩

end Tick

section PointerBounds

theorem mouseDist_pos (mouse : Mouse ℝ) (d : Dot ℝ) :
    1 / 10000 ≤ mouseDist Real.sqrt mouse d ∧ 0 < mouseDist Real.sqrt mouse d := by
  have h := Real.sqrt_nonneg (mouseDist2 mouse d)
  simp only [mouseDist]
  constructor <;> linarith

/-- C15: the pointer force is capped at `0.8`.  For every active pointer
position and every dot the velocity increment of the mouse branch has Euclidean
norm `< 0.8`; `strength = (1 - dist / 160) * 0.8` is `< 0.8` and the direction
vector `(dx / dist, dy / dist)` has norm `< 1`. -/
theorem mouse_kick_lt (mx my : ℝ) (d : Dot ℝ) :
    Real.sqrt ((mouseKick Real.sqrt ⟨mx, my, true⟩ d).1 ^ 2
      + (mouseKick Real.sqrt ⟨mx, my, true⟩ d).2 ^ 2) < 8 / 10 ∧
    mouseStrengthAt Real.sqrt ⟨mx, my, true⟩ d < 8 / 10 ∧
    Real.sqrt (((mx - d.x) / mouseDist Real.sqrt ⟨mx, my, true⟩ d) ^ 2
      + ((my - d.y) / mouseDist Real.sqrt ⟨mx, my, true⟩ d) ^ 2) < 1 := by
  obtain ⟨hd1, hd0⟩ := mouseDist_pos ⟨mx, my, true⟩ d
  have hr0 := Real.sqrt_nonneg (mouseDist2 ⟨mx, my, true⟩ d)
  have hr2 : Real.sqrt (mouseDist2 ⟨mx, my, true⟩ d) ^ 2 = mouseDist2 ⟨mx, my, true⟩ d :=
    Real.sq_sqrt (mouseDist2_nonneg _ d)
  have hD2 : mouseDist2 ⟨mx, my, true⟩ d = (mx - d.x) ^ 2 + (my - d.y) ^ 2 := by
    simp only [mouseDist2]; ring
  have hstr : mouseStrengthAt Real.sqrt ⟨mx, my, true⟩ d < 8 / 10 := by
    simp only [mouseStrengthAt]
    have : 0 < mouseDist Real.sqrt ⟨mx, my, true⟩ d / 160 := div_pos hd0 (by norm_num)
    linarith
  -- the direction vector has squared norm `r ^ 2 / dist ^ 2 < 1`
  have hdir : ((mx - d.x) / mouseDist Real.sqrt ⟨mx, my, true⟩ d) ^ 2
      + ((my - d.y) / mouseDist Real.sqrt ⟨mx, my, true⟩ d) ^ 2 < 1 := by
    rw [div_pow, div_pow, ← add_div, ← hD2, div_lt_one (by positivity), ← hr2]
    simp only [mouseDist]
    nlinarith
  have hdir0 : 0 ≤ ((mx - d.x) / mouseDist Real.sqrt ⟨mx, my, true⟩ d) ^ 2
      + ((my - d.y) / mouseDist Real.sqrt ⟨mx, my, true⟩ d) ^ 2 := by positivity
  refine ⟨?_, hstr, ?_⟩
  · rw [Real.sqrt_lt' (by norm_num)]
    by_cases hnear : mouseDist2 ⟨mx, my, true⟩ d < 160 * 160
    · rw [mouseKick_near _ _ _ _ hnear]
      have hr160 : Real.sqrt (mouseDist2 ⟨mx, my, true⟩ d) < 160 :=
        (sqrt_lt_160_iff _).mpr hnear
      have hlow : -(8 / 10) < mouseStrengthAt Real.sqrt ⟨mx, my, true⟩ d := by
        simp only [mouseStrengthAt, mouseDist]
        linarith
      have hs2 : mouseStrengthAt Real.sqrt ⟨mx, my, true⟩ d ^ 2 < (8 / 10) ^ 2 := by
        nlinarith
      have e : ((mx - d.x) / mouseDist Real.sqrt ⟨mx, my, true⟩ d
            * mouseStrengthAt Real.sqrt ⟨mx, my, true⟩ d) ^ 2
          + ((my - d.y) / mouseDist Real.sqrt ⟨mx, my, true⟩ d
            * mouseStrengthAt Real.sqrt ⟨mx, my, true⟩ d) ^ 2
          = (((mx - d.x) / mouseDist Real.sqrt ⟨mx, my, true⟩ d) ^ 2
            + ((my - d.y) / mouseDist Real.sqrt ⟨mx, my, true⟩ d) ^ 2)
            * mouseStrengthAt Real.sqrt ⟨mx, my, true⟩ d ^ 2 := by ring
      simp only
      rw [e]
      nlinarith [sq_nonneg (mouseStrengthAt Real.sqrt ⟨mx, my, true⟩ d)]
    · rw [mouseKick_far _ _ _ _ hnear]
      norm_num
  · rw [Real.sqrt_lt' (by norm_num)]
    simpa using hdir

/-- C16: the mouse branch never divides by zero: the divisor
`dist = sqrt(dist2) + 0.0001` is `>= 0.0001 > 0` for every pointer and dot.  When
the pointer is exactly on the dot, `dist = 0.0001`, the increment added to the
velocity is `(0, 0)` and the tick gives the same state as with the pointer
inactive. -/
theorem mouse_no_division_by_zero (mx my : ℝ) (b : Bool) (P : Params ℝ) (size : Size ℝ)
    (d : Dot ℝ) :
    1 / 10000 ≤ mouseDist Real.sqrt ⟨mx, my, b⟩ d ∧
    0 < mouseDist Real.sqrt ⟨mx, my, b⟩ d ∧
    mouseDist Real.sqrt ⟨d.x, d.y, true⟩ d = 1 / 10000 ∧
    mouseKick Real.sqrt ⟨d.x, d.y, true⟩ d = (0, 0) ∧
    animateDot Real.sqrt P ⟨d.x, d.y, true⟩ size d
      = animateDot Real.sqrt P ⟨d.x, d.y, false⟩ size d := by
  obtain ⟨h1, h2⟩ := mouseDist_pos ⟨mx, my, b⟩ d
  have hk : ∀ q : Dot ℝ, mouseStep Real.sqrt ⟨q.x, q.y, true⟩ q = q := by
    intro q
    simp [mouseStep]
  refine ⟨h1, h2, ?_, ?_, ?_⟩
  · simp [mouseDist, mouseDist2]
  · simp [mouseKick, hk d]
  · simp only [animateDot, preWrap, mouseStep_inactive]
    have := hk (springStep P d)
    rw [(springStep_pos P d).1, (springStep_pos P d).2] at this
    rw [this]

end PointerBounds

section HeartDeterminism

variable {α : Type} [LinearOrderedField α]

theorem heartBounds_eq_none (ps : List (Point α)) (h : heartBounds ps = none) : ps = [] := by
  cases ps with
  | nil => rfl
  | cons p ps => simp [heartBounds] at h

theorem zipWith_placeDot_target (size : Size α) (b : Bounds α) (scale : α)
    (ps : List (Point α)) :
    ∀ ds1 ds2 : List (Dot α), ds1.length = ps.length → ds2.length = ps.length →
      (List.zipWith (placeDot size b scale) ds1 ps).map heartTarget
        = (List.zipWith (placeDot size b scale) ds2 ps).map heartTarget := by
  induction ps with
  | nil => intro ds1 ds2 _ _; simp
  | cons p ps ih =>
    intro ds1 ds2 h1 h2
    cases ds1 with
    | nil => simp at h1
    | cons d1 ds1 =>
      cases ds2 with
      | nil => simp at h2
      | cons d2 ds2 =>
        simp only [List.length_cons, Nat.add_right_cancel_iff] at h1 h2
        simp only [List.zipWith_cons_cons, List.map_cons, ih ds1 ds2 h1 h2]
        rfl

theorem zipWith_placeDot_idem (size : Size α) (b : Bounds α) (scale : α) :
    ∀ (ds : List (Dot α)) (ps : List (Point α)),
      List.zipWith (placeDot size b scale) (List.zipWith (placeDot size b scale) ds ps) ps
        = List.zipWith (placeDot size b scale) ds ps := by
  intro ds
  induction ds with
  | nil => intro ps; simp
  | cons d ds ih =>
    intro ps
    cases ps with
    | nil => simp
    | cons p ps =>
      simp only [List.zipWith_cons_cons, ih ps]
      rfl

theorem zipWith_placeDot_frame (size : Size α) (b : Bounds α) (scale : α) :
    ∀ (ds : List (Dot α)) (ps : List (Point α)), ds.length = ps.length →
      (List.zipWith (placeDot size b scale) ds ps).map
          (fun d => (d.x, d.y, d.vx, d.vy, d.tx, d.ty))
        = ds.map (fun d => (d.x, d.y, d.vx, d.vy, d.tx, d.ty)) := by
  intro ds
  induction ds with
  | nil => intro ps _; simp
  | cons d ds ih =>
    intro ps h
    cases ps with
    | nil => simp at h
    | cons p ps =>
      simp only [List.length_cons, Nat.add_right_cancel_iff] at h
      simp only [List.zipWith_cons_cons, List.map_cons, ih ps h]
      rfl

/-- The three outcomes of `buildHeartTargets`: the empty pool is returned as it
is, a sample bounding box of zero width gives no finite result, and otherwise
dot `i` is placed from sample `i`. -/
theorem buildHeartTargets_cases (sin cos : α → α) (PI : α) (size : Size α) (ds : List (Dot α)) :
    (ds = [] ∧ buildHeartTargets sin cos PI size ds = some []) ∨
    buildHeartTargets sin cos PI size ds = none ∨
    ∃ b, heartBounds (heartPts sin cos PI ds.length) = some b ∧ b.maxX - b.minX ≠ 0 ∧
      buildHeartTargets sin cos PI size ds
        = some (List.zipWith (placeDot size b (size.w * (35 / 100) / (b.maxX - b.minX))) ds
            (heartPts sin cos PI ds.length)) := by
  rcases h : heartBounds (heartPts sin cos PI ds.length) with _ | b
  · left
    have h0 := congrArg List.length (heartBounds_eq_none _ h)
    rw [heartPts_length] at h0
    have hds : ds = [] := List.length_eq_zero.mp h0
    subst hds
    exact ⟨rfl, by simp [buildHeartTargets, heartPts, heartBounds]⟩
  · right
    by_cases hW : b.maxX - b.minX = 0
    · left
      simp [buildHeartTargets, h, jsDiv, hW]
    · right
      exact ⟨b, rfl, hW, by simp only [buildHeartTargets, h, jsDiv, if_neg hW, Option.map_some']⟩

/-- C14: the rebuild of the heart targets is deterministic and depends only on
the number of dots and the viewport.  Two pools of the same length, whatever
their positions, velocities, scatter targets and previous heart targets, get
the same sequence of `(hx, hy)` in the same viewport; a second call in a row
gives the same pool as the first; and `x`, `y`, `vx`, `vy`, `tx`, `ty` of every
dot and the length of the pool are unchanged. -/
theorem buildHeartTargets_deterministic (sin cos : α → α) (PI : α) (size : Size α)
    (ds1 ds2 : List (Dot α)) (hlen : ds1.length = ds2.length) :
    (buildHeartTargets sin cos PI size ds1).map (List.map heartTarget)
      = (buildHeartTargets sin cos PI size ds2).map (List.map heartTarget) ∧
    (buildHeartTargets sin cos PI size ds1).bind (buildHeartTargets sin cos PI size)
      = buildHeartTargets sin cos PI size ds1 ∧
    (buildHeartTargets sin cos PI size ds1).map
        (List.map (fun d => (d.x, d.y, d.vx, d.vy, d.tx, d.ty)))
      = (buildHeartTargets sin cos PI size ds1).map
        (fun _ => ds1.map (fun d => (d.x, d.y, d.vx, d.vy, d.tx, d.ty))) ∧
    (buildHeartTargets sin cos PI size ds1).map List.length
      = (buildHeartTargets sin cos PI size ds1).map (fun _ => ds1.length) := by
  have hp1 := heartPts_length sin cos PI ds1.length
  rcases buildHeartTargets_cases sin cos PI size ds1 with ⟨h1, hb1⟩ | hb1 | ⟨b, hb, hW, hb1⟩
  · subst h1
    have h2 : ds2 = [] := List.length_eq_zero.mp hlen.symm
    subst h2
    rw [hb1]
    simp [hb1]
  · rcases buildHeartTargets_cases sin cos PI size ds2 with ⟨h2, _⟩ | hb2 | ⟨b, hb, hW, _⟩
    · subst h2
      have h1 : ds1 = [] := List.length_eq_zero.mp hlen
      subst h1
      simp [buildHeartTargets, heartPts, heartBounds] at hb1
    · rw [hb1, hb2]
      simp
    · rw [← hlen] at hb
      simp [buildHeartTargets, hb, jsDiv, hW] at hb1
  · have hb2 : buildHeartTargets sin cos PI size ds2
        = some (List.zipWith (placeDot size b (size.w * (35 / 100) / (b.maxX - b.minX))) ds2
            (heartPts sin cos PI ds1.length)) := by
      simp only [buildHeartTargets, ← hlen, hb, jsDiv, if_neg hW, Option.map_some']
    have hl : (List.zipWith (placeDot size b (size.w * (35 / 100) / (b.maxX - b.minX))) ds1
        (heartPts sin cos PI ds1.length)).length = ds1.length := by
      simp [List.length_zipWith, hp1]
    have hb3 : buildHeartTargets sin cos PI size
        (List.zipWith (placeDot size b (size.w * (35 / 100) / (b.maxX - b.minX))) ds1
          (heartPts sin cos PI ds1.length))
        = some (List.zipWith (placeDot size b (size.w * (35 / 100) / (b.maxX - b.minX))) ds1
            (heartPts sin cos PI ds1.length)) := by
      simp only [buildHeartTargets, hl, hb, jsDiv, if_neg hW, Option.map_some']
      rw [zipWith_placeDot_idem]
    refine ⟨?_, ?_, ?_, ?_⟩
    · rw [hb1, hb2]
      simp only [Option.map_some', Option.some.injEq]
      exact zipWith_placeDot_target size b _ _ ds1 ds2 hp1.symm (by rw [hp1, hlen])
    · rw [hb1]
      simp only [Option.some_bind]
      exact hb3
    · rw [hb1]
      simp only [Option.map_some', Option.some.injEq]
      exact zipWith_placeDot_frame size b _ ds1 _ hp1.symm
    · rw [hb1]
      simp only [Option.map_some', Option.some.injEq]
      exact hl

theorem foldl_boundsStep_within (lo hi : α) (ps : List (Point α))
    (hps : ∀ p ∈ ps, lo ≤ p.x ∧ p.x ≤ hi) :
    ∀ c : Bounds α, lo ≤ c.minX → c.maxX ≤ hi →
      lo ≤ (ps.foldl boundsStep c).minX ∧ (ps.foldl boundsStep c).maxX ≤ hi := by
  induction ps with
  | nil => intro c h1 h2; exact ⟨h1, h2⟩
  | cons p ps ih =>
    intro c h1 h2
    simp only [List.foldl_cons]
    have hp := hps p (List.mem_cons_self _ _)
    apply ih (fun q hq => hps q (List.mem_cons_of_mem _ hq))
    · exact le_min h1 hp.1
    · exact max_le h2 hp.2

theorem heartBounds_within (lo hi : α) (ps : List (Point α)) (b : Bounds α)
    (hps : ∀ p ∈ ps, lo ≤ p.x ∧ p.x ≤ hi) (h : heartBounds ps = some b) :
    lo ≤ b.minX ∧ b.maxX ≤ hi := by
  cases ps with
  | nil => simp [heartBounds] at h
  | cons p ps =>
    simp only [heartBounds, Option.some.injEq] at h
    rw [← h]
    have hp := hps p (List.mem_cons_self _ _)
    exact foldl_boundsStep_within lo hi ps (fun q hq => hps q (List.mem_cons_of_mem _ hq)) _
      hp.1 hp.2

end HeartDeterminism

section HeartShipped

theorem real_heartPts_x_range (n : Nat) :
    ∀ p ∈ heartPts Real.sin Real.cos Real.pi n, -16 ≤ p.x ∧ p.x ≤ 16 := by
  intro p hp
  simp only [heartPts, List.mem_map, List.mem_range] at hp
  obtain ⟨i, _, rfl⟩ := hp
  simp only [heartPoint]
  have h1 := Real.neg_one_le_sin ((i : ℝ) / (n : ℝ) * Real.pi * 2)
  have h2 := Real.sin_le_one ((i : ℝ) / (n : ℝ) * Real.pi * 2)
  generalize Real.sin ((i : ℝ) / (n : ℝ) * Real.pi * 2) = u at h1 h2
  have hq1 : 0 ≤ 1 + u + u ^ 2 := by nlinarith [sq_nonneg (u + 1 / 2)]
  have hq2 : 0 ≤ 1 - u + u ^ 2 := by nlinarith [sq_nonneg (u - 1 / 2)]
  have h3 : u ^ 3 ≤ 1 := by nlinarith [mul_nonneg (sub_nonneg.mpr h2) hq1]
  have h4 : -1 ≤ u ^ 3 := by nlinarith [mul_nonneg (neg_le_iff_add_nonneg'.mp h1) hq2]
  constructor <;> linarith

theorem real_heartPts_sample (m : Nat) (hm : 0 < m) :
    ((heartPts Real.sin Real.cos Real.pi (4 * m))[m]?).map (fun p => p.x) = some (16 : ℝ) ∧
    ((heartPts Real.sin Real.cos Real.pi (4 * m))[3 * m]?).map (fun p => p.x) = some (-16 : ℝ) := by
  have hm0 : (m : ℝ) ≠ 0 := Nat.cast_ne_zero.mpr hm.ne'
  have ht1 : (m : ℝ) / ((4 * m : Nat) : ℝ) * Real.pi * 2 = Real.pi / 2 := by
    push_cast
    field_simp
    ring
  have ht3 : ((3 * m : Nat) : ℝ) / ((4 * m : Nat) : ℝ) * Real.pi * 2 = Real.pi / 2 + Real.pi := by
    push_cast
    field_simp
    ring
  constructor
  · simp only [heartPts, List.getElem?_map, List.getElem?_range (show m < 4 * m by omega),
      Option.map_some', heartPoint, ht1, Real.sin_pi_div_two]
    norm_num
  · simp only [heartPts, List.getElem?_map, List.getElem?_range (show 3 * m < 4 * m by omega),
      Option.map_some', heartPoint, ht3, Real.sin_add_pi, Real.sin_pi_div_two]
    norm_num

/-- With the real sine and cosine, the bounding box of the samples of a pool
whose size is a positive multiple of 4 runs from `x = -16` to `x = 16`. -/
theorem real_heart_bounds (m : Nat) (hm : 0 < m) :
    ∃ b, heartBounds (heartPts Real.sin Real.cos Real.pi (4 * m)) = some b ∧
      b.minX = -16 ∧ b.maxX = 16 := by
  obtain ⟨h16, hm16⟩ := real_heartPts_sample m hm
  obtain ⟨p, hp, hpx⟩ : ∃ p ∈ heartPts Real.sin Real.cos Real.pi (4 * m), p.x = 16 := by
    rcases hq : (heartPts Real.sin Real.cos Real.pi (4 * m))[m]? with _ | q
    · rw [hq] at h16; simp at h16
    · rw [hq] at h16
      exact ⟨q, List.getElem?_mem hq, by simpa using h16⟩
  obtain ⟨p2, hp2, hpx2⟩ : ∃ p ∈ heartPts Real.sin Real.cos Real.pi (4 * m), p.x = -16 := by
    rcases hq : (heartPts Real.sin Real.cos Real.pi (4 * m))[3 * m]? with _ | q
    · rw [hq] at hm16; simp at hm16
    · rw [hq] at hm16
      exact ⟨q, List.getElem?_mem hq, by simpa using hm16⟩
  obtain ⟨b, hb⟩ := heartBounds_isSome (heartPts Real.sin Real.cos Real.pi (4 * m))
    (List.ne_nil_of_mem hp)
  have hin := heartBounds_within (-16) 16 _ b (real_heartPts_x_range (4 * m)) hb
  have h1 := (heartBounds_mem _ b hb p hp).2.1
  have h2 := (heartBounds_mem _ b hb p2 hp2).1
  rw [hpx] at h1
  rw [hpx2] at h2
  exact ⟨b, hb, le_antisymm h2 hin.1, le_antisymm hin.2 h1⟩

/-- C19: for the pool size of the program, `N = 1500`, with the real sine and
cosine, the bounding box of the sampled heart curve is not degenerate: samples
375 and 1125 have `x = 16` and `x = -16`, every sample has `-16 <= x <= 16`, so
`maxX - minX = 32`, the scale is `0.35 * w / 32` and the division in
`buildHeartTargets` is not by zero: the rebuild returns the placed pool. -/
theorem heart_width_1500 (size : Size ℝ) (ds : List (Dot ℝ)) (hlen : ds.length = 1500) :
    ((heartPts Real.sin Real.cos Real.pi 1500)[375]?).map (fun p => p.x) = some (16 : ℝ) ∧
    ((heartPts Real.sin Real.cos Real.pi 1500)[1125]?).map (fun p => p.x) = some (-16 : ℝ) ∧
    (∀ p ∈ heartPts Real.sin Real.cos Real.pi 1500, (-16 : ℝ) ≤ p.x ∧ p.x ≤ 16) ∧
    ∃ b, heartBounds (heartPts Real.sin Real.cos Real.pi 1500) = some b ∧
      b.maxX - b.minX = 32 ∧
      jsDiv (size.w * (35 / 100)) (b.maxX - b.minX) = some (35 / 100 * size.w / 32) ∧
      buildHeartTargets Real.sin Real.cos Real.pi size ds
        = some (List.zipWith (placeDot size b (35 / 100 * size.w / 32)) ds
            (heartPts Real.sin Real.cos Real.pi 1500)) := by
  obtain ⟨b, hb, hmin, hmax⟩ := real_heart_bounds 375 (by norm_num)
  have hs := real_heartPts_sample 375 (by norm_num)
  rw [show 4 * 375 = 1500 from rfl] at hb hs
  rw [show 3 * 375 = 1125 from rfl] at hs
  have hw : b.maxX - b.minX = 32 := by rw [hmin, hmax]; norm_num
  have hj : jsDiv (size.w * (35 / 100)) (b.maxX - b.minX) = some (35 / 100 * size.w / 32) := by
    rw [hw]
    simp only [jsDiv]
    rw [if_neg (by norm_num), Option.some.injEq]
    ring
  refine ⟨hs.1, hs.2, real_heartPts_x_range 1500, b, hb, hw, hj, ?_⟩
  simp only [buildHeartTargets, hlen, hb, hj, Option.map_some']

/-- Witness of C19: the pool of 1500 dots created in an `800 x 600` viewport with
all draws `1/2`, rebuilt in that viewport: the scale is `0.35 * 800 / 32`. -/
theorem heart_width_1500_witness :
    (dots (⟨800, 600⟩ : Size ℝ) (fun _ => 1 / 2) 1500).length = 1500 ∧
    ∃ b, heartBounds (heartPts Real.sin Real.cos Real.pi 1500) = some b ∧
      b.maxX - b.minX = 32 ∧
      buildHeartTargets Real.sin Real.cos Real.pi ⟨800, 600⟩
          (dots (⟨800, 600⟩ : Size ℝ) (fun _ => 1 / 2) 1500)
        = some (List.zipWith (placeDot ⟨800, 600⟩ b (35 / 100 * 800 / 32))
            (dots (⟨800, 600⟩ : Size ℝ) (fun _ => 1 / 2) 1500)
            (heartPts Real.sin Real.cos Real.pi 1500)) := by
  have hlen : (dots (⟨800, 600⟩ : Size ℝ) (fun _ => 1 / 2) 1500).length = 1500 :=
    dots_length _ _ _
  obtain ⟨_, _, _, b, hb, hw, _, hbuild⟩ := heart_width_1500 ⟨800, 600⟩
    (dots (⟨800, 600⟩ : Size ℝ) (fun _ => 1 / 2) 1500) hlen
  exact ⟨hlen, b, hb, hw, hbuild⟩

/-- Witness of C14: two pools of 4 dots created in different viewports with
different draws, rebuilt in a `400 x 300` viewport with the real sine and
cosine: the rebuild returns a pool and both get the same heart targets. -/
theorem buildHeartTargets_deterministic_witness :
    (dots (⟨400, 300⟩ : Size ℝ) (fun _ => 1 / 2) 4).length
      = (dots (⟨800, 600⟩ : Size ℝ) (fun _ => 1 / 4) 4).length ∧
    (∃ ds, buildHeartTargets Real.sin Real.cos Real.pi ⟨400, 300⟩
      (dots (⟨400, 300⟩ : Size ℝ) (fun _ => 1 / 2) 4) = some ds) ∧
    (buildHeartTargets Real.sin Real.cos Real.pi ⟨400, 300⟩
        (dots (⟨400, 300⟩ : Size ℝ) (fun _ => 1 / 2) 4)).map (List.map heartTarget)
      = (buildHeartTargets Real.sin Real.cos Real.pi ⟨400, 300⟩
        (dots (⟨800, 600⟩ : Size ℝ) (fun _ => 1 / 4) 4)).map (List.map heartTarget) := by
  have hlen : (dots (⟨400, 300⟩ : Size ℝ) (fun _ => 1 / 2) 4).length
      = (dots (⟨800, 600⟩ : Size ℝ) (fun _ => 1 / 4) 4).length := by
    rw [dots_length, dots_length]
  have hsome : ∃ ds, buildHeartTargets Real.sin Real.cos Real.pi ⟨400, 300⟩
      (dots (⟨400, 300⟩ : Size ℝ) (fun _ => 1 / 2) 4) = some ds := by
    obtain ⟨b, hb, hne⟩ := real_heart_width 1 (by norm_num)
    have hb2 : heartBounds (heartPts Real.sin Real.cos Real.pi
        (dots (⟨400, 300⟩ : Size ℝ) (fun _ => 1 / 2) 4).length) = some b := by
      rw [dots_length]; exact hb
    exact ⟨_, (buildHeartTargets_some Real.sin Real.cos Real.pi ⟨400, 300⟩ _ b
      (by norm_num) hb2 hne).2.1⟩
  exact ⟨hlen, hsome, (buildHeartTargets_deterministic Real.sin Real.cos Real.pi ⟨400, 300⟩
    _ _ hlen).1⟩

end HeartShipped

section Button

theorem btnDist2_nonneg (rect : Rect ℝ) (X Y : ℝ) : 0 ≤ btnDist2 rect X Y := by
  exact add_nonneg (mul_self_nonneg _) (mul_self_nonneg _)

theorem btnRepel_near (sqrt : ℝ → ℝ) (rect : Rect ℝ) (X Y : ℝ)
    (h : btnDist2 rect X Y < 140 * 140) :
    btnRepel sqrt rect X Y
      = (-((X - (rect.left + rect.width / 2)) / (sqrt (btnDist2 rect X Y) + 1 / 10000)) * 18
            * btnStrength sqrt rect X Y,
         -((Y - (rect.top + rect.height / 2)) / (sqrt (btnDist2 rect X Y) + 1 / 10000)) * 18
            * btnStrength sqrt rect X Y) := by
  simp only [btnDist2] at h
  simp only [btnRepel, btnStrength, btnDist2, if_pos h]

theorem btnRepel_far (sqrt : ℝ → ℝ) (rect : Rect ℝ) (X Y : ℝ)
    (h : ¬ btnDist2 rect X Y < 140 * 140) : btnRepel sqrt rect X Y = (0, 0) := by
  simp only [btnDist2] at h
  simp only [btnRepel, if_neg h]

/-- What the handler does outside the last `0.0001` of its radius: for a mouse
at distance `r <= 140 - 0.0001` from the button centre `strength` is in `[0, 1]`
and the offset has a non-positive dot product with `(dx, dy)`; at distance
`r >= 140` the offset is `(0, 0)`; and the offset never exceeds `maxMove = 18`
in norm. -/
theorem btnRepel_away (rect : Rect ℝ) (X Y : ℝ) :
    (Real.sqrt (btnDist2 rect X Y) ≤ 140 - 1 / 10000 →
      0 ≤ btnStrength Real.sqrt rect X Y ∧ btnStrength Real.sqrt rect X Y ≤ 1 ∧
      (btnRepel Real.sqrt rect X Y).1 * (X - (rect.left + rect.width / 2))
        + (btnRepel Real.sqrt rect X Y).2 * (Y - (rect.top + rect.height / 2)) ≤ 0) ∧
    (140 ≤ Real.sqrt (btnDist2 rect X Y) → btnRepel Real.sqrt rect X Y = (0, 0)) ∧
    Real.sqrt ((btnRepel Real.sqrt rect X Y).1 ^ 2 + (btnRepel Real.sqrt rect X Y).2 ^ 2)
      ≤ 18 := by
  have hD := btnDist2_nonneg rect X Y
  have hr0 := Real.sqrt_nonneg (btnDist2 rect X Y)
  have hr2 : Real.sqrt (btnDist2 rect X Y) ^ 2 = btnDist2 rect X Y := Real.sq_sqrt hD
  have hD2 : btnDist2 rect X Y
      = (X - (rect.left + rect.width / 2)) ^ 2 + (Y - (rect.top + rect.height / 2)) ^ 2 := by
    simp only [btnDist2]; ring
  have hlt : ∀ c : ℝ, 0 < c → (Real.sqrt (btnDist2 rect X Y) < c ↔ btnDist2 rect X Y < c * c) := by
    intro c hc
    rw [Real.sqrt_lt' hc, sq]
  refine ⟨?_, ?_, ?_⟩
  · intro h
    have hnear : btnDist2 rect X Y < 140 * 140 := (hlt 140 (by norm_num)).mp (by linarith)
    have hs0 : 0 ≤ btnStrength Real.sqrt rect X Y := by
      simp only [btnStrength]
      have : (Real.sqrt (btnDist2 rect X Y) + 1 / 10000) / 140 ≤ 1 := by
        rw [div_le_one (by norm_num)]; linarith
      linarith
    have hs1 : btnStrength Real.sqrt rect X Y ≤ 1 := by
      simp only [btnStrength]
      have : 0 ≤ (Real.sqrt (btnDist2 rect X Y) + 1 / 10000) / 140 := by positivity
      linarith
    refine ⟨hs0, hs1, ?_⟩
    rw [btnRepel_near _ _ _ _ hnear]
    have hdist : 0 < Real.sqrt (btnDist2 rect X Y) + 1 / 10000 := by linarith
    have e : -((X - (rect.left + rect.width / 2)) / (Real.sqrt (btnDist2 rect X Y) + 1 / 10000))
          * 18 * btnStrength Real.sqrt rect X Y * (X - (rect.left + rect.width / 2))
        + -((Y - (rect.top + rect.height / 2)) / (Real.sqrt (btnDist2 rect X Y) + 1 / 10000))
          * 18 * btnStrength Real.sqrt rect X Y * (Y - (rect.top + rect.height / 2))
        = -(btnDist2 rect X Y * (18 * btnStrength Real.sqrt rect X Y
            / (Real.sqrt (btnDist2 rect X Y) + 1 / 10000))) := by
      rw [hD2]; ring
    simp only
    rw [e]
    have : 0 ≤ btnDist2 rect X Y * (18 * btnStrength Real.sqrt rect X Y
        / (Real.sqrt (btnDist2 rect X Y) + 1 / 10000)) :=
      mul_nonneg hD (div_nonneg (mul_nonneg (by norm_num) hs0) hdist.le)
    linarith
  · intro h
    apply btnRepel_far
    rw [← hlt 140 (by norm_num)]
    exact not_lt.mpr h
  · rw [Real.sqrt_le_iff]
    refine ⟨by norm_num, ?_⟩
    by_cases hnear : btnDist2 rect X Y < 140 * 140
    · rw [btnRepel_near _ _ _ _ hnear]
      have hr140 : Real.sqrt (btnDist2 rect X Y) < 140 := (hlt 140 (by norm_num)).mpr hnear
      have hdist : 0 < Real.sqrt (btnDist2 rect X Y) + 1 / 10000 := by linarith
      have hs1 : btnStrength Real.sqrt rect X Y ≤ 1 := by
        simp only [btnStrength]
        have : 0 ≤ (Real.sqrt (btnDist2 rect X Y) + 1 / 10000) / 140 := by positivity
        linarith
      have hs2 : -1 ≤ btnStrength Real.sqrt rect X Y := by
        simp only [btnStrength]
        linarith
      have hsq : btnStrength Real.sqrt rect X Y ^ 2 ≤ 1 := by nlinarith
      have hdir : ((X - (rect.left + rect.width / 2))
            / (Real.sqrt (btnDist2 rect X Y) + 1 / 10000)) ^ 2
          + ((Y - (rect.top + rect.height / 2))
            / (Real.sqrt (btnDist2 rect X Y) + 1 / 10000)) ^ 2 ≤ 1 := by
        rw [div_pow, div_pow, ← add_div, ← hD2, div_le_one (by positivity)]
        nlinarith
      have hdir0 : 0 ≤ ((X - (rect.left + rect.width / 2))
            / (Real.sqrt (btnDist2 rect X Y) + 1 / 10000)) ^ 2
          + ((Y - (rect.top + rect.height / 2))
            / (Real.sqrt (btnDist2 rect X Y) + 1 / 10000)) ^ 2 := by positivity
      have e : (-((X - (rect.left + rect.width / 2))
              / (Real.sqrt (btnDist2 rect X Y) + 1 / 10000)) * 18
            * btnStrength Real.sqrt rect X Y) ^ 2
          + (-((Y - (rect.top + rect.height / 2))
              / (Real.sqrt (btnDist2 rect X Y) + 1 / 10000)) * 18
            * btnStrength Real.sqrt rect X Y) ^ 2
          = (((X - (rect.left + rect.width / 2))
              / (Real.sqrt (btnDist2 rect X Y) + 1 / 10000)) ^ 2
            + ((Y - (rect.top + rect.height / 2))
              / (Real.sqrt (btnDist2 rect X Y) + 1 / 10000)) ^ 2)
            * btnStrength Real.sqrt rect X Y ^ 2 * 18 ^ 2 := by ring
      simp only
      rw [e]
      have h1 : (((X - (rect.left + rect.width / 2))
              / (Real.sqrt (btnDist2 rect X Y) + 1 / 10000)) ^ 2
            + ((Y - (rect.top + rect.height / 2))
              / (Real.sqrt (btnDist2 rect X Y) + 1 / 10000)) ^ 2)
            * btnStrength Real.sqrt rect X Y ^ 2 ≤ 1 :=
        mul_le_one₀ hdir (sq_nonneg _) hsq
      nlinarith
    · rw [btnRepel_far _ _ _ _ hnear]
      norm_num

/-- C18 fails in the code at a mouse position in the last `0.0001` of the
radius.  With the button rectangle `(left 60.00005, top 80, width 80,
height 40)`, centre `(100.00005, 100)`, and the mouse at `(240, 100)`, the
distance is `139.99995`, the squared distance is below `140 ^ 2`,
`strength = 1 - 140.00005 / 140` is negative, and the offset passed to `moveX`,
`moveY` has a positive dot product with `(dx, dy)`: the button moves toward the
mouse. -/
theorem btnRepel_band :
    btnDist2 (⟨6000005 / 100000, 80, 80, 40⟩ : Rect ℝ) 240 100 < 140 * 140 ∧
    btnStrength Real.sqrt (⟨6000005 / 100000, 80, 80, 40⟩ : Rect ℝ) 240 100
      = -(5 / 100000) / 140 ∧
    btnStrength Real.sqrt (⟨6000005 / 100000, 80, 80, 40⟩ : Rect ℝ) 240 100 < 0 ∧
    0 < (btnRepel Real.sqrt (⟨6000005 / 100000, 80, 80, 40⟩ : Rect ℝ) 240 100).1
          * (240 - (6000005 / 100000 + 80 / 2))
        + (btnRepel Real.sqrt (⟨6000005 / 100000, 80, 80, 40⟩ : Rect ℝ) 240 100).2
          * (100 - (80 + 40 / 2)) := by
  have hD : btnDist2 (⟨6000005 / 100000, 80, 80, 40⟩ : Rect ℝ) 240 100
      = (13999995 / 100000) ^ 2 := by
    norm_num [btnDist2]
  have hr : Real.sqrt (btnDist2 (⟨6000005 / 100000, 80, 80, 40⟩ : Rect ℝ) 240 100)
      = 13999995 / 100000 := by
    rw [hD]; exact Real.sqrt_sq (by norm_num)
  have hnear : btnDist2 (⟨6000005 / 100000, 80, 80, 40⟩ : Rect ℝ) 240 100 < 140 * 140 := by
    rw [hD]; norm_num
  refine ⟨hnear, ?_, ?_, ?_⟩
  · simp only [btnStrength, hr]
    norm_num
  · simp only [btnStrength, hr]
    norm_num
  · rw [btnRepel_near _ _ _ _ hnear]
    simp only [btnStrength, hr]
    norm_num

end Button

end Valentine
